import Mathlib

set_option autoImplicit false

namespace Debuginfo

/-- Debug-info level from the session options: NoDebugInfo, LimitedDebugInfo or
FullDebugInfo (rustc::session::config). -/
inductive DebugInfoLevel where
  | no
  | limited
  | full
deriving DecidableEq, Repr

/-- Function ABI; only the RustCall distinction is examined by this module
(get_function_signature), all other ABIs behave alike here. -/
inductive Abi where
  | rustCall
  | rust
  | c
deriving DecidableEq, Repr

/-- A source span as observed through span_start: source file, line and column.
DUMMY_SP is one distinguished value of this type. -/
structure Span where
  file : Nat
  line : Nat
  col : Nat
deriving DecidableEq, Repr

/-- The dummy span used for code that has no real source location
(syntax_pos::DUMMY_SP). -/
def DUMMY_SP : Span := ⟨0, 0, 0⟩

/-- A definition id: crate number and definition index within the crate
(rustc::hir::def_id::DefId). -/
structure DefId where
  krate : Nat
  index : Nat
deriving DecidableEq, Repr

mutual
/-- Compiler-internal types, restricted to the structure this module examines:
the u8 primitive, tuples (the empty tuple is the unit type), fixed-size arrays,
nominal ADTs carrying their box flag, immutable raw pointers (mk_imm_ptr), and
otherwise-uninterpreted types carrying their zero-sizedness. Tuple element
lists are a mutual inductive so that all recursion over types is structural. -/
inductive Ty where
  | u8
  | tuple (tys : TyList)
  | array (elem : Ty) (len : Nat)
  | adt (id : Nat) (isBox : Bool)
  | immPtr (elem : Ty)
  | prim (id : Nat) (zst : Bool)
inductive TyList where
  | nil
  | cons (head : Ty) (tail : TyList)
end

/-- The elements of a tuple type, as an ordinary list. -/
def TyList.toList : TyList → List Ty
  | TyList.nil => []
  | TyList.cons head tail => head :: tail.toList

mutual
/-- Boolean equality on types (type identity, used as the key of the
crate-wide type map). -/
def Ty.beq : Ty → Ty → Bool
  | Ty.u8, Ty.u8 => true
  | Ty.tuple as, Ty.tuple bs => TyList.beq as bs
  | Ty.array e n, Ty.array f m => Ty.beq e f && n == m
  | Ty.adt i x, Ty.adt j y => i == j && x == y
  | Ty.immPtr e, Ty.immPtr f => Ty.beq e f
  | Ty.prim i x, Ty.prim j y => i == j && x == y
  | _, _ => false
def TyList.beq : TyList → TyList → Bool
  | TyList.nil, TyList.nil => true
  | TyList.cons a as, TyList.cons b bs => Ty.beq a b && TyList.beq as bs
  | _, _ => false
end

instance : BEq Ty := ⟨Ty.beq⟩

mutual
/-- Modelled from the spec: the layout query cx.layout_of(t).is_zst() (whether
a type is zero-sized) lives outside this module; zero-sizedness is determined
structurally here (tuples of zero-sized elements and zero-length or
zero-sized-element arrays are zero-sized), with uninterpreted types carrying
their own flag. -/
def is_zst : Ty → Bool
  | Ty.u8 => false
  | Ty.tuple tys => TyList.all_zst tys
  | Ty.array elem len => len == 0 || is_zst elem
  | Ty.adt _ _ => false
  | Ty.immPtr _ => false
  | Ty.prim _ zst => zst
def TyList.all_zst : TyList → Bool
  | TyList.nil => true
  | TyList.cons head tail => is_zst head && TyList.all_zst tail
end

/-- Metadata nodes produced by the native debug-info builder. A node is
identified by the data the builder call that created it received, so the model
needs no separate node-id supply. -/
inductive Node where
  | typeNode (ty : Ty)
  | fileNode (file : Nat) (krate : Nat)
  | namespaceNode (d : DefId)
  | subroutineTypeNode (file : Node) (paramTypes : List (Option Node))
  | subprogramNode (scope : Node) (name : String) (linkageName : String)
      (file : Node) (line : Nat) (fnType : Node) (isLocalToUnit : Bool)
      (scopeLine : Nat) (mainSubprogram : Bool) (isOptimized : Bool)
      (templateParams : List Node)
  | templateTypeParameterNode (name : String) (ty : Node) (file : Node)
  | variableNode (tag : Nat) (scope : Node) (name : String) (file : Node)
      (line : Nat) (ty : Node) (isOptimized : Bool) (argIndex : Nat)
      (align : Nat)

/-- One observable call into the native debug-info builder (or the
source-location tracker). Creation events carry the node they produced. -/
inductive Event where
  | createTypeNode (ty : Ty)
  | createNamespace (d : DefId)
  | createFile (file : Nat) (krate : Nat)
  | createSubroutineType (node : Node)
  | createTemplateTypeParameter (node : Node)
  | createFunction (node : Node)
  | createVariable (node : Node)
  | insertDeclare (alloca : Nat) (varNode : Node) (addressOps : List Int)
  | setDebugLocation (loc : Option (Node × Nat × Nat))
  | builderFinalize
  | builderDispose
  | addModuleFlag (key : String) (value : Nat)
  | gdbScriptsSection

def Event.isCreateTypeNode : Event → Bool
  | Event.createTypeNode _ => true
  | _ => false

def Event.isCreateNamespace : Event → Bool
  | Event.createNamespace _ => true
  | _ => false

def Event.isCreateFile : Event → Bool
  | Event.createFile _ _ => true
  | _ => false

def Event.isCreateSubroutineType : Event → Bool
  | Event.createSubroutineType _ => true
  | _ => false

def Event.isCreateTemplateTypeParameter : Event → Bool
  | Event.createTemplateTypeParameter _ => true
  | _ => false

def Event.isCreateFunction : Event → Bool
  | Event.createFunction _ => true
  | _ => false

def Event.isCreateVariable : Event → Bool
  | Event.createVariable _ => true
  | _ => false

def Event.isInsertDeclare : Event → Bool
  | Event.insertDeclare _ _ _ => true
  | _ => false

def Event.isClearDebugLocation : Event → Bool
  | Event.setDebugLocation none => true
  | _ => false

/-- The caches owned by the CrateDebugContext that this module's operations can
touch: the type map, the namespace map and the file cache (keyed as in the
source: type identity, definition id, and (file, crate) pair). Only the keys
need recording, since each node is determined by its key. -/
structure DebugState where
  typeMap : List Ty
  namespaceMap : List DefId
  fileMap : List (Nat × Nat)

/-- Modelled from the spec: metadata::type_metadata, which lives outside this
file, returns the metadata node for a type, memoized by type identity in the
crate-wide type map; a cache hit makes no builder call. -/
def type_metadata (st : DebugState) (t : Ty) : Node × DebugState × List Event :=
  if st.typeMap.contains t then
    (Node.typeNode t, st, [])
  else
    (Node.typeNode t, { st with typeMap := t :: st.typeMap },
     [Event.createTypeNode t])

/-- Modelled from the spec: namespace::item_namespace, which lives outside this
file, looks up or creates the parallel-namespace scope node for a definition id
through the namespace cache; a cache hit makes no builder call. -/
def item_namespace (st : DebugState) (d : DefId) : Node × DebugState × List Event :=
  if d ∈ st.namespaceMap then
    (Node.namespaceNode d, st, [])
  else
    (Node.namespaceNode d, { st with namespaceMap := d :: st.namespaceMap },
     [Event.createNamespace d])

/-- Modelled from the spec: metadata::file_metadata, which lives outside this
file, returns the file node for a (path, defining crate) pair, cached in the
crate context's file cache; a cache hit makes no builder call. -/
def file_metadata (st : DebugState) (file : Nat) (krate : Nat) :
    Node × DebugState × List Event :=
  if (file, krate) ∈ st.fileMap then
    (Node.fileNode file krate, st, [])
  else
    (Node.fileNode file krate, { st with fileMap := (file, krate) :: st.fileMap },
     [Event.createFile file krate])

/-- Generic parameter environment of a definition (ty::Generics): its own type
parameter names plus, for nested items, the enclosing definition's generics. -/
inductive Generics where
  | root (types : List String)
  | nested (parent : Generics) (types : List String)

/-- The slice of CodegenCx consulted by this module: session options, target
options, entry-point record, and tcx queries. The query functions model
collaborators (type normalization, name rendering, layout, HIR maps) that live
outside this file. -/
structure CodegenCx where
  debuginfo : DebugInfoLevel
  optimize : Bool
  isLikeMsvc : Bool
  isLikeOsx : Bool
  isLikeAndroid : Bool
  dbgCxPresent : Bool
  needsGdbScripts : Bool
  debugMetadataVersion : Nat
  entryFn : Option Nat
  normalize : Ty → Ty
  typeName : Ty → String
  alignOf : Ty → Nat
  implOfMethod : DefId → Option DefId
  traitIdOfImpl : DefId → Option Nat
  transImplSelfTy : DefId → List Ty → Ty
  defKeyParent : DefId → Option Nat
  defKeyName : DefId → String
  closureBaseDefId : DefId → DefId
  genericsOf : DefId → Generics
  asLocalNodeId : DefId → Option Nat
  isNodeLocalToUnit : Nat → Bool

/-- A monomorphized function instance: its definition id, its generic type
arguments (instance.substs.types() after truncation to the enclosing
definition's generics), its attributes, and its mangled symbol name
(namespace::mangled_name_of_instance, computed outside this file). -/
structure Instance where
  defId : DefId
  substs : List Ty
  attrs : List String
  mangledName : String

/-- A function signature: parameter types, return type and ABI (ty::FnSig). -/
structure FnSig where
  inputs : List Ty
  output : Ty
  abi : Abi

/-- Per-function debug context data: the subprogram node, the mutable
"source locations enabled" flag, and the defining crate for file lookups. -/
structure FunctionDebugContextData where
  fn_metadata : Node
  source_locations_enabled : Bool
  defining_crate : Nat

/-- The tri-state function debug context: RegularContext(data),
DebugInfoDisabled, or FunctionWithoutDebugInfo ("suppressed"). -/
inductive FunctionDebugContext where
  | regularContext (data : FunctionDebugContextData)
  | debugInfoDisabled
  | functionWithoutDebugInfo

def debuginfo_disabled_message : String :=
  "debuginfo: Error trying to access FunctionDebugContext although debug info is disabled!"

def should_be_ignored_message : String :=
  "debuginfo: Error trying to access FunctionDebugContext for function that should be ignored by debug info!"

/-- FunctionDebugContext::get_ref: only the Regular variant may be
dereferenced; the other variants abort with a span_bug (modelled as Except). -/
def FunctionDebugContext.get_ref :
    FunctionDebugContext → Except String FunctionDebugContextData
  | FunctionDebugContext.regularContext data => Except.ok data
  | FunctionDebugContext.debugInfoDisabled => Except.error debuginfo_disabled_message
  | FunctionDebugContext.functionWithoutDebugInfo => Except.error should_be_ignored_message

/-- How a local's value is reached from its storage location. -/
inductive VariableAccess where
  | directVariable (alloca : Nat)
  | indirectVariable (alloca : Nat) (address_operations : List Int)

/-- The kind of a declared local variable. -/
inductive VariableKind where
  | argumentVariable (index : Nat)
  | localVariable
  | capturedVariable

def DW_TAG_auto_variable : Nat := 0x100

def DW_TAG_arg_variable : Nat := 0x101

/-- finalize(cx): create any deferred debug metadata; a no-op when the unit has
no debug context, otherwise gdb-scripts marker (target-conditional), builder
finalize then dispose, and the platform module flags. -/
def finalize (cx : CodegenCx) : List Event :=
  if cx.dbgCxPresent = false then
    []
  else
    (if cx.needsGdbScripts then [Event.gdbScriptsSection] else []) ++
    [Event.builderFinalize, Event.builderDispose] ++
    (if cx.isLikeOsx || cx.isLikeAndroid then
       [Event.addModuleFlag "Dwarf Version" 2]
     else []) ++
    (if cx.isLikeMsvc then [Event.addModuleFlag "CodeView" 1] else []) ++
    [Event.addModuleFlag "Debug Info Version" cx.debugMetadataVersion]

/-- The MSVC workaround in get_function_signature: a fixed-size array whose
element type is u8 or zero-sized is replaced by an immutable pointer to the
element type; every other type is left unchanged. -/
def msvc_arg_substitution (t : Ty) : Ty :=
  match t with
  | Ty.array ct _ => if ct == Ty.u8 || is_zst ct then Ty.immPtr ct else t
  | _ => t

/-- Threads type_metadata over a list of types, collecting the nodes in
order. -/
def type_metadata_list (st : DebugState) : List Ty → List Node × DebugState × List Event
  | [] => ([], st, [])
  | t :: ts =>
    let r := type_metadata st t
    let rest := type_metadata_list r.2.1 ts
    (r.1 :: rest.1, rest.2.1, r.2.2 ++ rest.2.2)

/-- The index-0 entry of the signature array: a unit return is encoded as the
null entry (no type node is requested for it), any other return type goes
through type_metadata. -/
def return_type_metadata (st : DebugState) (output : Ty) :
    Option Node × DebugState × List Event :=
  match output with
  | Ty.tuple TyList.nil => (none, st, [])
  | _ =>
    let r := type_metadata st output
    (some r.1, r.2.1, r.2.2)

/-- The declared parameters that reach the argument loop of
get_function_signature: all of them, except that the rust-call ABI drops the
trailing (tupled) parameter. -/
def rc_inputs (sig : FnSig) : List Ty :=
  if sig.abi = Abi.rustCall then sig.inputs.dropLast else sig.inputs

/-- The element types unpacked from a tupled rust-call last parameter (the
trailing loop of get_function_signature; empty for every other signature). -/
def rust_call_unpacked (sig : FnSig) : List Ty :=
  if sig.abi = Abi.rustCall ∧ sig.inputs.isEmpty = false then
    match sig.inputs.getLast? with
    | some (Ty.tuple tupleArgs) => tupleArgs.toList
    | _ => []
  else []

/-- get_function_signature (nested in create_function_debug_context): the
parameter-type array for the subroutine-type node. Empty under limited debug
info; otherwise return type at index 0 (null for unit), then the argument
types (minus the tupled last argument under the rust-call ABI, with the MSVC
array workaround applied), then the unpacked elements of a tupled rust-call
last argument. -/
def get_function_signature (cx : CodegenCx) (st : DebugState) (sig : FnSig) :
    List (Option Node) × DebugState × List Event :=
  if cx.debuginfo = DebugInfoLevel.limited then
    ([], st, [])
  else
    let ret := return_type_metadata st sig.output
    let inputs := rc_inputs sig
    let args :=
      if cx.isLikeMsvc then
        type_metadata_list ret.2.1 (inputs.map msvc_arg_substitution)
      else
        type_metadata_list ret.2.1 inputs
    let unpacked := type_metadata_list args.2.1 (rust_call_unpacked sig)
    (ret.1 :: args.1.map some ++ unpacked.1.map some, unpacked.2.1,
     ret.2.2 ++ args.2.2 ++ unpacked.2.2)

/-- get_type_parameter_names: the generic type parameter names, walking the
enclosing-generics chain parent parameters first, then the definition's own. -/
def get_type_parameter_names : Generics → List String
  | Generics.root types => types
  | Generics.nested parent types => get_type_parameter_names parent ++ types

/-- The template-parameter creation loop of get_template_parameters: one
template-type-parameter node per (substituted type, parameter name) pair, the
type normalized and resolved through type_metadata. -/
def mk_template_params (cx : CodegenCx) (st : DebugState) (fileMd : Node) :
    List (Ty × String) → List Node × DebugState × List Event
  | [] => ([], st, [])
  | (t, nm) :: rest =>
    let actual_type := cx.normalize t
    let r := type_metadata st actual_type
    let node := Node.templateTypeParameterNode nm r.1 fileMd
    let tail := mk_template_params cx r.2.1 fileMd rest
    (node :: tail.1, tail.2.1,
     r.2.2 ++ Event.createTemplateTypeParameter node :: tail.2.2)

/-- get_template_parameters (nested in create_function_debug_context): appends
the generic-argument suffix to the display name and, under full debug info
only, creates one template-parameter node per substituted type argument,
zipped with the parameter names. Returns (template parameter nodes, updated
display name, state, events). -/
def get_template_parameters (cx : CodegenCx) (st : DebugState)
    (generics : Generics) (substs : List Ty) (file_md : Node)
    (name_to_append_suffix_to : String) :
    List Node × String × DebugState × List Event :=
  if substs.isEmpty then
    ([], name_to_append_suffix_to, st, [])
  else
    let suffix :=
      String.intercalate "," (substs.map fun t => cx.typeName (cx.normalize t))
    let name := name_to_append_suffix_to ++ "<" ++ suffix ++ ">"
    if cx.debuginfo = DebugInfoLevel.full then
      let names := get_type_parameter_names generics
      let r := mk_template_params cx st file_md (substs.zip names)
      (r.1, name, r.2.1, r.2.2)
    else
      ([], name, st, [])

/-- The self_type computation at the head of get_containing_scope: some self
type exactly when the function is a method of an inherent (non-trait) impl
whose self type is a nominal ADT other than Box. -/
def impl_self_type (cx : CodegenCx) (inst : Instance) : Option Ty :=
  match cx.implOfMethod inst.defId with
  | some impl_def_id =>
    if cx.traitIdOfImpl impl_def_id = none then
      let impl_self_ty := cx.transImplSelfTy impl_def_id inst.substs
      match impl_self_ty with
      | Ty.adt id isBox => if !isBox then some (Ty.adt id isBox) else none
      | _ => none
    else
      none
  | none => none

/-- get_containing_scope (nested in create_function_debug_context): an
inherent (non-trait-impl) method on a non-box nominal ADT is scoped to its
self type's metadata node; everything else resolves to the parallel namespace
of the definition's lexical parent, and a missing parent id is a fatal
internal error. -/
def get_containing_scope (cx : CodegenCx) (st : DebugState) (inst : Instance) :
    Except String (Node × DebugState × List Event) :=
  match impl_self_type cx inst with
  | some t => Except.ok (type_metadata st t)
  | none =>
    match cx.defKeyParent inst.defId with
    | some parentIndex =>
      Except.ok (item_namespace st ⟨inst.defId.krate, parentIndex⟩)
    | none => Except.error "get_containing_scope: missing parent?"

/-- The subprogram node created by LLVMRustDIBuilderCreateFunction, as a
function of its already-computed ingredients: containing scope, decorated
display name, linkage name, file node, definition line (also used as the scope
line), the subroutine type built from the signature array, the local-to-unit
flag, the main-subprogram flag (set only when the definition is the recorded
entry point), the optimize flag and the template parameters. -/
def mk_fn_node (cx : CodegenCx) (inst : Instance) (mirSpan : Span) (cs : Node)
    (nm : String) (fm : Node) (fs : List (Option Node)) (tps : List Node) : Node :=
  Node.subprogramNode cs nm inst.mangledName fm mirSpan.line
    (Node.subroutineTypeNode fm fs)
    (((cx.asLocalNodeId inst.defId).map cx.isNodeLocalToUnit).getD false)
    mirSpan.line
    (match cx.entryFn with
     | some id => cx.asLocalNodeId inst.defId == some id
     | none => false)
    cx.optimize tps

/-- create_function_debug_context: the per-function entry point. Returns
Disabled when debug info is off, Suppressed for a no_debug attribute or a
dummy span, and otherwise builds file metadata, the subroutine type, the
decorated name with template parameters, and the subprogram node, wrapped in
Regular. The fatal missing-parent condition of scope resolution surfaces as
Except.error. -/
def create_function_debug_context (cx : CodegenCx) (st : DebugState)
    (inst : Instance) (sig : FnSig) (mirSpan : Span) :
    Except String (FunctionDebugContext × DebugState × List Event) :=
  if cx.debuginfo = DebugInfoLevel.no then
    Except.ok (FunctionDebugContext.debugInfoDisabled, st, [])
  else if inst.attrs.contains "no_debug" then
    Except.ok (FunctionDebugContext.functionWithoutDebugInfo, st, [])
  else
    match get_containing_scope cx st inst with
    | Except.error e => Except.error e
    | Except.ok (containing_scope, st1, ev_scope) =>
      if mirSpan = DUMMY_SP then
        Except.ok (FunctionDebugContext.functionWithoutDebugInfo, st1, ev_scope)
      else
        let def_id := inst.defId
        let loc := mirSpan
        let fm := file_metadata st1 loc.file def_id.krate
        let fs := get_function_signature cx fm.2.1 sig
        let function_type_metadata := Node.subroutineTypeNode fm.1 fs.1
        let name0 := cx.defKeyName def_id
        let enclosing_fn_def_id := cx.closureBaseDefId def_id
        let generics := cx.genericsOf enclosing_fn_def_id
        let tp := get_template_parameters cx fs.2.1 generics inst.substs fm.1 name0
        let fn_metadata := mk_fn_node cx inst mirSpan containing_scope tp.2.1 fm.1 fs.1 tp.1
        Except.ok
          (FunctionDebugContext.regularContext
            { fn_metadata, source_locations_enabled := false,
              defining_crate := def_id.krate },
           tp.2.2.1,
           ev_scope ++ fm.2.2 ++ fs.2.2 ++
             [Event.createSubroutineType function_type_metadata] ++
             tp.2.2.2 ++ [Event.createFunction fn_metadata])

/-- declare_local: emits one variable-declaration node for a local, binds it
to its storage location through an insert-declare marker (with the
address-operation chain for indirect access), and for argument and captured
variables asserts that source-location tracking is still off and then resets
the current debug location to unknown. -/
def declare_local (cx : CodegenCx) (st : DebugState)
    (dbg_context : FunctionDebugContext) (variable_name : String)
    (variable_type : Ty) (scope_metadata : Node)
    (variable_access : VariableAccess) (variable_kind : VariableKind)
    (span : Span) : Except String (DebugState × List Event) :=
  match dbg_context.get_ref with
  | Except.error e => Except.error e
  | Except.ok data =>
    let fm := file_metadata st span.file data.defining_crate
    let loc := span
    let tm := type_metadata fm.2.1 variable_type
    let argument_index_and_tag :=
      match variable_kind with
      | VariableKind.argumentVariable index => (index, DW_TAG_arg_variable)
      | VariableKind.localVariable => (0, DW_TAG_auto_variable)
      | VariableKind.capturedVariable => (0, DW_TAG_auto_variable)
    let align := cx.alignOf variable_type
    let alloca_and_ops :=
      match variable_access with
      | VariableAccess.directVariable alloca => (alloca, ([] : List Int))
      | VariableAccess.indirectVariable alloca address_operations =>
          (alloca, address_operations)
    let metadata := Node.variableNode argument_index_and_tag.2 scope_metadata
      variable_name fm.1 loc.line tm.1 cx.optimize argument_index_and_tag.1 align
    let evs := fm.2.2 ++ tm.2.2 ++
      [Event.createVariable metadata,
       Event.setDebugLocation (some (scope_metadata, loc.line, loc.col)),
       Event.insertDeclare alloca_and_ops.1 metadata alloca_and_ops.2]
    match variable_kind with
    | VariableKind.argumentVariable _ =>
      if data.source_locations_enabled then
        Except.error "assertion failed: source_locations_enabled must still be false"
      else
        Except.ok (tm.2.1, evs ++ [Event.setDebugLocation none])
    | VariableKind.capturedVariable =>
      if data.source_locations_enabled then
        Except.error "assertion failed: source_locations_enabled must still be false"
      else
        Except.ok (tm.2.1, evs ++ [Event.setDebugLocation none])
    | VariableKind.localVariable => Except.ok (tm.2.1, evs)

/-- The value of the index-0 signature entry, as a function of the return type
alone: null for unit, the return type's node otherwise. -/
def return_type_entry : Ty → Option Node
  | Ty.tuple TyList.nil => none
  | t => some (Node.typeNode t)

/-- The per-argument type seen by the debug signature: the MSVC array
workaround on MSVC-like targets, the identity elsewhere. -/
def arg_transform (cx : CodegenCx) (t : Ty) : Ty :=
  if cx.isLikeMsvc then msvc_arg_substitution t else t

/-- Whether a function debug context is the Regular variant. -/
def FunctionDebugContext.isRegular : FunctionDebugContext → Bool
  | FunctionDebugContext.regularContext _ => true
  | _ => false

/-- The subprogram node held by a Regular function debug context, if any. -/
def FunctionDebugContext.fnMetadata? : FunctionDebugContext → Option Node
  | FunctionDebugContext.regularContext data => some data.fn_metadata
  | _ => none

/-- The source-locations-enabled flag of a Regular function debug context, if
any. -/
def FunctionDebugContext.srcLocFlag? : FunctionDebugContext → Option Bool
  | FunctionDebugContext.regularContext data => some data.source_locations_enabled
  | _ => none

/-- The DWARF tag chosen for a variable kind: argument for arguments,
automatic for locals and captured variables. -/
def variable_tag : VariableKind → Nat
  | VariableKind.argumentVariable _ => DW_TAG_arg_variable
  | VariableKind.localVariable => DW_TAG_auto_variable
  | VariableKind.capturedVariable => DW_TAG_auto_variable

/-- The argument index encoded for a variable kind: the given index for
arguments, 0 for locals and captured variables. -/
def variable_index : VariableKind → Nat
  | VariableKind.argumentVariable index => index
  | VariableKind.localVariable => 0
  | VariableKind.capturedVariable => 0

/-- The storage location of a variable access. -/
def access_alloca : VariableAccess → Nat
  | VariableAccess.directVariable alloca => alloca
  | VariableAccess.indirectVariable alloca _ => alloca

/-- The address-operation chain attached to the declare marker: empty for
direct access, the provided chain for indirect access. -/
def access_ops : VariableAccess → List Int
  | VariableAccess.directVariable _ => []
  | VariableAccess.indirectVariable _ address_operations => address_operations

/-- The trailing debug-location reset of declare_local: performed for argument
and captured variables, not for ordinary locals. -/
def reset_events : VariableKind → List Event
  | VariableKind.localVariable => []
  | VariableKind.argumentVariable _ => [Event.setDebugLocation none]
  | VariableKind.capturedVariable => [Event.setDebugLocation none]

/-- The variable node created by one declare_local call, as a function of its
ingredients. -/
def mk_variable_node (cx : CodegenCx) (variable_name : String)
    (variable_type : Ty) (scope_metadata : Node) (variable_kind : VariableKind)
    (span : Span) (fm : Node) (tm : Node) : Node :=
  Node.variableNode (variable_tag variable_kind) scope_metadata variable_name
    fm span.line tm cx.optimize (variable_index variable_kind)
    (cx.alignOf variable_type)

def Event.isBuilderFinalize : Event → Bool
  | Event.builderFinalize => true
  | _ => false

def Event.isBuilderDispose : Event → Bool
  | Event.builderDispose => true
  | _ => false

/-- The (key, value) pairs of the module flags written in a trace, in order. -/
def module_flags (l : List Event) : List (String × Nat) :=
  l.filterMap fun e =>
    match e with
    | Event.addModuleFlag key value => some (key, value)
    | _ => none

/-- Whether a signature entry is an immutable-pointer type node. -/
def entry_is_imm_ptr : Option Node → Bool
  | some (Node.typeNode (Ty.immPtr _)) => true
  | _ => false

/-- Whether a type is a nominal ADT other than Box, the shape accepted by the
self-type branch of get_containing_scope. -/
def is_non_box_adt : Ty → Bool
  | Ty.adt _ isBox => !isBox
  | _ => false

/-- An empty crate-context cache state, as at the start of a unit. -/
def st0 : DebugState := ⟨[], [], []⟩

/-- A concrete context with full debug info on a non-MSVC, non-OSX target,
used to instantiate the theorems below at computable inputs. -/
def cx0 : CodegenCx where
  debuginfo := DebugInfoLevel.full
  optimize := false
  isLikeMsvc := false
  isLikeOsx := false
  isLikeAndroid := false
  dbgCxPresent := true
  needsGdbScripts := false
  debugMetadataVersion := 3
  entryFn := none
  normalize := fun t => t
  typeName := fun _ => "T"
  alignOf := fun _ => 4
  implOfMethod := fun _ => none
  traitIdOfImpl := fun _ => none
  transImplSelfTy := fun _ _ => Ty.u8
  defKeyParent := fun _ => some 0
  defKeyName := fun _ => "f"
  closureBaseDefId := fun d => d
  genericsOf := fun _ => Generics.root []
  asLocalNodeId := fun _ => none
  isNodeLocalToUnit := fun _ => false

/-- A concrete function instance with no attributes and no substitutions. -/
def inst0 : Instance where
  defId := ⟨0, 1⟩
  substs := []
  attrs := []
  mangledName := "_f"

/-- A concrete signature fn(u8) -> u8 under the default ABI. -/
def sig0 : FnSig where
  inputs := [Ty.u8]
  output := Ty.u8
  abi := Abi.rust

/-- A concrete non-dummy span. -/
def span1 : Span := ⟨1, 10, 2⟩

/-- cx0 on an MSVC-like target. -/
def cxMsvc : CodegenCx := { cx0 with isLikeMsvc := true }

/-- cx0 with debug info globally disabled. -/
def cxNo : CodegenCx := { cx0 with debuginfo := DebugInfoLevel.no }

/-- cx0 with limited debug info. -/
def cxLim : CodegenCx := { cx0 with debuginfo := DebugInfoLevel.limited }

/-- cx0 on an OSX-like target. -/
def cxOsx : CodegenCx := { cx0 with isLikeOsx := true }

/-- cx0 for a unit that never enabled debug info. -/
def cxNoDbg : CodegenCx := { cx0 with dbgCxPresent := false }

/-- cx0 where the instance is an inherent method on a non-box ADT. -/
def cxInherent : CodegenCx :=
  { cx0 with implOfMethod := fun _ => some ⟨0, 7⟩,
             transImplSelfTy := fun _ _ => Ty.adt 3 false }

/-- cx0 where the definition has no lexical parent. -/
def cxNoParent : CodegenCx := { cx0 with defKeyParent := fun _ => none }

/-- inst0 carrying the no_debug attribute. -/
def instND : Instance := { inst0 with attrs := ["no_debug"] }

/-- inst0 with two generic type arguments. -/
def instGen : Instance := { inst0 with substs := [Ty.u8, Ty.tuple TyList.nil] }

/-- A signature with one zero-sized (unit-typed) argument. -/
def sigZst : FnSig where
  inputs := [Ty.tuple TyList.nil]
  output := Ty.u8
  abi := Abi.rust

/-- A rust-call signature whose last parameter is a tuple. -/
def sigRC : FnSig where
  inputs := [Ty.u8, Ty.tuple (TyList.cons Ty.u8 (TyList.cons (Ty.prim 0 false) TyList.nil))]
  output := Ty.tuple TyList.nil
  abi := Abi.rustCall

/-- A signature exercising the MSVC array workaround: a u8 array, an array of
zero-sized elements, an array of ordinary elements, and a non-array ZST. -/
def sigArr : FnSig where
  inputs := [Ty.array Ty.u8 4, Ty.array (Ty.tuple TyList.nil) 7,
             Ty.array (Ty.prim 0 false) 2, Ty.tuple TyList.nil]
  output := Ty.tuple TyList.nil
  abi := Abi.rust

/-- A two-level generics chain: parent parameter P, own parameters T and U. -/
def genG : Generics := Generics.nested (Generics.root ["P"]) ["T", "U"]

/-- Function debug context data with source locations still disabled. -/
def data0 : FunctionDebugContextData where
  fn_metadata := Node.namespaceNode ⟨0, 0⟩
  source_locations_enabled := false
  defining_crate := 0

/-- Function debug context data after source locations were enabled. -/
def dataT : FunctionDebugContextData where
  fn_metadata := Node.namespaceNode ⟨0, 0⟩
  source_locations_enabled := true
  defining_crate := 0

/-- Whether a fallible computation succeeded. -/
def is_ok {α : Type} : Except String α → Bool
  | Except.ok _ => true
  | Except.error _ => false

/-- The variable node of the concrete declare_local call used in witnesses:
an indirect argument x of type u8 at span1. -/
def md7 : Node :=
  mk_variable_node cx0 "x" Ty.u8 (Node.namespaceNode ⟨0, 0⟩)
    (VariableKind.argumentVariable 1) span1 (Node.fileNode 1 0)
    (Node.typeNode Ty.u8)

/-- The builder trace of that declare_local call. -/
def evs7 : List Event :=
  [Event.createFile 1 0, Event.createTypeNode Ty.u8,
   Event.createVariable md7,
   Event.setDebugLocation (some (Node.namespaceNode ⟨0, 0⟩, 10, 2)),
   Event.insertDeclare 5 md7 [8, 0],
   Event.setDebugLocation none]

/-- The subprogram node created for inst0 with sig0 at span1 under cx0. -/
def fn0 : Node :=
  mk_fn_node cx0 inst0 span1 (Node.namespaceNode ⟨0, 0⟩) "f"
    (Node.fileNode 1 0)
    [some (Node.typeNode Ty.u8), some (Node.typeNode Ty.u8)] []

/-- The Regular context data created for inst0 under cx0. -/
def data1 : FunctionDebugContextData where
  fn_metadata := fn0
  source_locations_enabled := false
  defining_crate := 0

/-- The cache state after creating inst0's function debug context. -/
def st3C : DebugState := ⟨[Ty.u8], [⟨0, 0⟩], [(1, 0)]⟩

/-- The builder trace of creating inst0's function debug context. -/
def evs1 : List Event :=
  [Event.createNamespace ⟨0, 0⟩, Event.createFile 1 0,
   Event.createTypeNode Ty.u8,
   Event.createSubroutineType (Node.subroutineTypeNode (Node.fileNode 1 0)
     [some (Node.typeNode Ty.u8), some (Node.typeNode Ty.u8)]),
   Event.createFunction fn0]

theorem type_metadata_fst (st : DebugState) (t : Ty) :
    (type_metadata st t).1 = Node.typeNode t := by
  unfold type_metadata
  split <;> rfl

theorem type_metadata_events (st : DebugState) (t : Ty) :
    ∀ e ∈ (type_metadata st t).2.2, e.isCreateTypeNode = true := by
  unfold type_metadata
  split <;> simp [Event.isCreateTypeNode]

theorem type_metadata_fileMap (st : DebugState) (t : Ty) :
    (type_metadata st t).2.1.fileMap = st.fileMap := by
  unfold type_metadata
  split <;> rfl

theorem item_namespace_fst (st : DebugState) (d : DefId) :
    (item_namespace st d).1 = Node.namespaceNode d := by
  unfold item_namespace
  split <;> rfl

theorem item_namespace_events (st : DebugState) (d : DefId) :
    ∀ e ∈ (item_namespace st d).2.2, e.isCreateNamespace = true := by
  unfold item_namespace
  split <;> simp [Event.isCreateNamespace]

theorem item_namespace_fileMap (st : DebugState) (d : DefId) :
    (item_namespace st d).2.1.fileMap = st.fileMap := by
  unfold item_namespace
  split <;> rfl

theorem file_metadata_events (st : DebugState) (f k : Nat) :
    ∀ e ∈ (file_metadata st f k).2.2, e.isCreateFile = true := by
  unfold file_metadata
  split <;> simp [Event.isCreateFile]

theorem type_metadata_list_fst (st : DebugState) (ts : List Ty) :
    (type_metadata_list st ts).1 = ts.map Node.typeNode := by
  induction ts generalizing st with
  | nil => rfl
  | cons t ts ih =>
    simp only [type_metadata_list, List.map_cons, type_metadata_fst, ih]

theorem type_metadata_list_events (st : DebugState) (ts : List Ty) :
    ∀ e ∈ (type_metadata_list st ts).2.2, e.isCreateTypeNode = true := by
  induction ts generalizing st with
  | nil => intro e he; simp [type_metadata_list] at he
  | cons t ts ih =>
    intro e he
    simp only [type_metadata_list, List.mem_append] at he
    rcases he with he | he
    · exact type_metadata_events st t e he
    · exact ih _ e he

theorem return_type_metadata_fst (st : DebugState) (o : Ty) :
    (return_type_metadata st o).1 = return_type_entry o := by
  unfold return_type_metadata return_type_entry
  match o with
  | Ty.u8 => simp [type_metadata_fst]
  | Ty.tuple TyList.nil => rfl
  | Ty.tuple (TyList.cons t ts) => simp [type_metadata_fst]
  | Ty.array _ _ => simp [type_metadata_fst]
  | Ty.adt _ _ => simp [type_metadata_fst]
  | Ty.immPtr _ => simp [type_metadata_fst]
  | Ty.prim _ _ => simp [type_metadata_fst]

theorem return_type_metadata_events (st : DebugState) (o : Ty) :
    ∀ e ∈ (return_type_metadata st o).2.2, e.isCreateTypeNode = true := by
  unfold return_type_metadata
  match o with
  | Ty.u8 => exact type_metadata_events st _
  | Ty.tuple TyList.nil => intro e he; simp at he
  | Ty.tuple (TyList.cons t ts) => exact type_metadata_events st _
  | Ty.array _ _ => exact type_metadata_events st _
  | Ty.adt _ _ => exact type_metadata_events st _
  | Ty.immPtr _ => exact type_metadata_events st _
  | Ty.prim _ _ => exact type_metadata_events st _

theorem get_function_signature_fst (cx : CodegenCx) (st : DebugState)
    (sig : FnSig) (h : cx.debuginfo ≠ DebugInfoLevel.limited) :
    (get_function_signature cx st sig).1 =
      return_type_entry sig.output ::
        ((rc_inputs sig).map fun t => some (Node.typeNode (arg_transform cx t))) ++
        ((rust_call_unpacked sig).map fun t => some (Node.typeNode t)) := by
  unfold get_function_signature
  rw [if_neg h]
  by_cases hm : cx.isLikeMsvc <;>
    simp [hm, arg_transform, return_type_metadata_fst, type_metadata_list_fst,
      Function.comp_def]

theorem countP_zero_of_all {p q : Event → Bool} (l : List Event)
    (hall : ∀ e ∈ l, p e = true) (hdisj : ∀ e, p e = true → q e = false) :
    l.countP q = 0 := by
  rw [List.countP_eq_zero]
  intro a ha
  simp [hdisj a (hall a ha)]

theorem get_function_signature_events (cx : CodegenCx) (st : DebugState)
    (sig : FnSig) :
    ∀ e ∈ (get_function_signature cx st sig).2.2, e.isCreateTypeNode = true := by
  unfold get_function_signature
  split
  · intro e he; simp at he
  · intro e he
    simp only [List.mem_append] at he
    rcases he with (he | he) | he
    · exact return_type_metadata_events _ _ e he
    · revert he
      split <;> (intro he; exact type_metadata_list_events _ _ e he)
    · exact type_metadata_list_events _ _ e he

theorem mk_template_params_fst (cx : CodegenCx) (st : DebugState) (fm : Node)
    (pairs : List (Ty × String)) :
    (mk_template_params cx st fm pairs).1 =
      pairs.map fun p => Node.templateTypeParameterNode p.2
        (Node.typeNode (cx.normalize p.1)) fm := by
  induction pairs generalizing st with
  | nil => rfl
  | cons p ps ih =>
    cases p with
    | mk t nm => simp [mk_template_params, type_metadata_fst, ih]

theorem mk_template_params_events (cx : CodegenCx) (st : DebugState) (fm : Node)
    (pairs : List (Ty × String)) :
    ∀ e ∈ (mk_template_params cx st fm pairs).2.2,
      (e.isCreateTypeNode || e.isCreateTemplateTypeParameter) = true := by
  induction pairs generalizing st with
  | nil => intro e he; simp [mk_template_params] at he
  | cons p ps ih =>
    cases p with
    | mk t nm =>
      intro e he
      simp only [mk_template_params, List.mem_append, List.mem_cons] at he
      rcases he with he | he | he
      · simp [type_metadata_events st (cx.normalize t) e he]
      · subst he; simp [Event.isCreateTemplateTypeParameter]
      · exact ih _ e he

theorem mk_template_params_count (cx : CodegenCx) (st : DebugState) (fm : Node)
    (pairs : List (Ty × String)) :
    ((mk_template_params cx st fm pairs).2.2).countP
        Event.isCreateTemplateTypeParameter = pairs.length := by
  induction pairs generalizing st with
  | nil => simp [mk_template_params]
  | cons p ps ih =>
    cases p with
    | mk t nm =>
      simp only [mk_template_params, List.countP_append, List.countP_cons,
        List.length_cons]
      rw [countP_zero_of_all _ (type_metadata_events st (cx.normalize t))
        (fun e he => by
          cases e <;> simp_all [Event.isCreateTypeNode,
            Event.isCreateTemplateTypeParameter]), ih]
      simp [Event.isCreateTemplateTypeParameter, Nat.add_comm]

theorem get_template_parameters_name (cx : CodegenCx) (st : DebugState)
    (g : Generics) (substs : List Ty) (fm : Node) (nm : String)
    (hne : substs.isEmpty = false) :
    (get_template_parameters cx st g substs fm nm).2.1 =
      nm ++ "<" ++
        String.intercalate "," (substs.map fun t => cx.typeName (cx.normalize t))
        ++ ">" := by
  unfold get_template_parameters
  simp only [hne, Bool.false_eq_true, if_false]
  split <;> rfl

theorem get_template_parameters_fst_full (cx : CodegenCx) (st : DebugState)
    (g : Generics) (substs : List Ty) (fm : Node) (nm : String)
    (hfull : cx.debuginfo = DebugInfoLevel.full) :
    (get_template_parameters cx st g substs fm nm).1 =
      (substs.zip (get_type_parameter_names g)).map fun p =>
        Node.templateTypeParameterNode p.2 (Node.typeNode (cx.normalize p.1)) fm := by
  unfold get_template_parameters
  by_cases hempty : substs.isEmpty = true
  · rw [List.isEmpty_iff] at hempty
    simp [hempty]
  · rw [if_neg hempty, if_pos hfull]
    exact mk_template_params_fst cx st fm _

theorem get_template_parameters_count_full (cx : CodegenCx) (st : DebugState)
    (g : Generics) (substs : List Ty) (fm : Node) (nm : String)
    (hfull : cx.debuginfo = DebugInfoLevel.full) :
    ((get_template_parameters cx st g substs fm nm).2.2.2).countP
        Event.isCreateTemplateTypeParameter =
      (substs.zip (get_type_parameter_names g)).length := by
  unfold get_template_parameters
  by_cases hempty : substs.isEmpty = true
  · rw [List.isEmpty_iff] at hempty
    simp [hempty]
  · rw [if_neg hempty, if_pos hfull]
    exact mk_template_params_count cx st fm _

theorem get_template_parameters_not_full (cx : CodegenCx) (st : DebugState)
    (g : Generics) (substs : List Ty) (fm : Node) (nm : String)
    (hnf : ¬ cx.debuginfo = DebugInfoLevel.full) :
    (get_template_parameters cx st g substs fm nm).1 = [] ∧
    (get_template_parameters cx st g substs fm nm).2.2.2 = [] := by
  unfold get_template_parameters
  by_cases hempty : substs.isEmpty = true
  · rw [if_pos hempty]
    exact ⟨rfl, rfl⟩
  · rw [if_neg hempty, if_neg hnf]
    exact ⟨rfl, rfl⟩

theorem get_template_parameters_events (cx : CodegenCx) (st : DebugState)
    (g : Generics) (substs : List Ty) (fm : Node) (nm : String) :
    ∀ e ∈ (get_template_parameters cx st g substs fm nm).2.2.2,
      (e.isCreateTypeNode || e.isCreateTemplateTypeParameter) = true := by
  unfold get_template_parameters
  by_cases hempty : substs.isEmpty = true
  · rw [if_pos hempty]
    intro e he; simp at he
  · rw [if_neg hempty]
    by_cases hfull : cx.debuginfo = DebugInfoLevel.full
    · rw [if_pos hfull]
      exact mk_template_params_events cx st fm _
    · rw [if_neg hfull]
      intro e he; simp at he

theorem get_containing_scope_events (cx : CodegenCx) (st : DebugState)
    (inst : Instance) (n : Node) (st' : DebugState) (ev : List Event)
    (h : get_containing_scope cx st inst = Except.ok (n, st', ev)) :
    ∀ e ∈ ev, (e.isCreateTypeNode || e.isCreateNamespace) = true := by
  unfold get_containing_scope at h
  cases hself : impl_self_type cx inst with
  | some t =>
    rw [hself] at h
    have h' : type_metadata st t = (n, st', ev) := Except.ok.inj h
    intro e he
    have hmem : e ∈ (type_metadata st t).2.2 := by rw [h']; exact he
    simp [type_metadata_events st t e hmem]
  | none =>
    rw [hself] at h
    cases hparent : cx.defKeyParent inst.defId with
    | some parentIndex =>
      rw [hparent] at h
      have h' : item_namespace st ⟨inst.defId.krate, parentIndex⟩ = (n, st', ev) :=
        Except.ok.inj h
      intro e he
      have hmem : e ∈ (item_namespace st ⟨inst.defId.krate, parentIndex⟩).2.2 := by
        rw [h']; exact he
      simp [item_namespace_events _ _ e hmem]
    | none =>
      rw [hparent] at h
      exact absurd h (by simp)

theorem get_containing_scope_fileMap (cx : CodegenCx) (st : DebugState)
    (inst : Instance) (n : Node) (st' : DebugState) (ev : List Event)
    (h : get_containing_scope cx st inst = Except.ok (n, st', ev)) :
    st'.fileMap = st.fileMap := by
  unfold get_containing_scope at h
  cases hself : impl_self_type cx inst with
  | some t =>
    rw [hself] at h
    have h' : type_metadata st t = (n, st', ev) := Except.ok.inj h
    have hf := type_metadata_fileMap st t
    rw [h'] at hf
    exact hf
  | none =>
    rw [hself] at h
    cases hparent : cx.defKeyParent inst.defId with
    | some parentIndex =>
      rw [hparent] at h
      have h' : item_namespace st ⟨inst.defId.krate, parentIndex⟩ = (n, st', ev) :=
        Except.ok.inj h
      have hf := item_namespace_fileMap st ⟨inst.defId.krate, parentIndex⟩
      rw [h'] at hf
      exact hf
    | none =>
      rw [hparent] at h
      exact absurd h (by simp)

theorem create_fdc_disabled (cx : CodegenCx) (st : DebugState) (inst : Instance)
    (sig : FnSig) (mirSpan : Span) (h : cx.debuginfo = DebugInfoLevel.no) :
    create_function_debug_context cx st inst sig mirSpan =
      Except.ok (FunctionDebugContext.debugInfoDisabled, st, []) := by
  unfold create_function_debug_context
  rw [if_pos h]

theorem create_fdc_no_debug_attr (cx : CodegenCx) (st : DebugState)
    (inst : Instance) (sig : FnSig) (mirSpan : Span)
    (h1 : ¬ cx.debuginfo = DebugInfoLevel.no)
    (h2 : inst.attrs.contains "no_debug" = true) :
    create_function_debug_context cx st inst sig mirSpan =
      Except.ok (FunctionDebugContext.functionWithoutDebugInfo, st, []) := by
  unfold create_function_debug_context
  rw [if_neg h1, if_pos h2]

theorem create_fdc_dummy_span (cx : CodegenCx) (st : DebugState)
    (inst : Instance) (sig : FnSig)
    (h1 : ¬ cx.debuginfo = DebugInfoLevel.no)
    (h2 : inst.attrs.contains "no_debug" = false)
    (cs : Node) (st1 : DebugState) (e1 : List Event)
    (hcs : get_containing_scope cx st inst = Except.ok (cs, st1, e1)) :
    create_function_debug_context cx st inst sig DUMMY_SP =
      Except.ok (FunctionDebugContext.functionWithoutDebugInfo, st1, e1) := by
  unfold create_function_debug_context
  rw [if_neg h1]
  simp only [h2, Bool.false_eq_true, if_false, hcs]
  rw [if_pos trivial]

theorem create_fdc_regular (cx : CodegenCx) (st : DebugState) (inst : Instance)
    (sig : FnSig) (mirSpan : Span)
    (h1 : ¬ cx.debuginfo = DebugInfoLevel.no)
    (h2 : inst.attrs.contains "no_debug" = false)
    (cs : Node) (st1 : DebugState) (e1 : List Event)
    (hcs : get_containing_scope cx st inst = Except.ok (cs, st1, e1))
    (h3 : ¬ mirSpan = DUMMY_SP)
    (fm : Node) (st2 : DebugState) (e2 : List Event)
    (hfm : file_metadata st1 mirSpan.file inst.defId.krate = (fm, st2, e2))
    (fs : List (Option Node)) (st3 : DebugState) (e3 : List Event)
    (hfs : get_function_signature cx st2 sig = (fs, st3, e3))
    (tps : List Node) (nm : String) (st4 : DebugState) (e4 : List Event)
    (htp : get_template_parameters cx st3
        (cx.genericsOf (cx.closureBaseDefId inst.defId)) inst.substs fm
        (cx.defKeyName inst.defId) = (tps, nm, st4, e4)) :
    create_function_debug_context cx st inst sig mirSpan =
      Except.ok (FunctionDebugContext.regularContext
          { fn_metadata := mk_fn_node cx inst mirSpan cs nm fm fs tps,
            source_locations_enabled := false,
            defining_crate := inst.defId.krate },
        st4,
        e1 ++ e2 ++ e3 ++
          [Event.createSubroutineType (Node.subroutineTypeNode fm fs)] ++
          e4 ++ [Event.createFunction (mk_fn_node cx inst mirSpan cs nm fm fs tps)]) := by
  unfold create_function_debug_context
  rw [if_neg h1]
  simp only [h2, Bool.false_eq_true, if_false, hcs]
  rw [if_neg h3]
  simp only [hfm, hfs, htp]

theorem declare_local_regular (cx : CodegenCx) (st : DebugState)
    (data : FunctionDebugContextData) (variable_name : String)
    (variable_type : Ty) (scope_metadata : Node)
    (variable_access : VariableAccess) (variable_kind : VariableKind)
    (span : Span) (hflag : data.source_locations_enabled = false)
    (fm : Node) (st1 : DebugState) (e1 : List Event)
    (hfm : file_metadata st span.file data.defining_crate = (fm, st1, e1))
    (tm : Node) (st2 : DebugState) (e2 : List Event)
    (htm : type_metadata st1 variable_type = (tm, st2, e2)) :
    declare_local cx st (FunctionDebugContext.regularContext data)
        variable_name variable_type scope_metadata variable_access
        variable_kind span =
      Except.ok (st2,
        e1 ++ e2 ++
          [Event.createVariable (mk_variable_node cx variable_name
             variable_type scope_metadata variable_kind span fm tm),
           Event.setDebugLocation (some (scope_metadata, span.line, span.col)),
           Event.insertDeclare (access_alloca variable_access)
             (mk_variable_node cx variable_name variable_type scope_metadata
               variable_kind span fm tm)
             (access_ops variable_access)] ++
          reset_events variable_kind) := by
  unfold declare_local FunctionDebugContext.get_ref
  simp only [hfm, htm]
  cases variable_kind <;> cases variable_access <;>
    simp [hflag, mk_variable_node, variable_tag, variable_index,
      access_alloca, access_ops, reset_events]

theorem declare_local_assert_violation (cx : CodegenCx) (st : DebugState)
    (data : FunctionDebugContextData) (variable_name : String)
    (variable_type : Ty) (scope_metadata : Node)
    (variable_access : VariableAccess) (variable_kind : VariableKind)
    (span : Span) (hflag : data.source_locations_enabled = true)
    (hkind : ¬ variable_kind = VariableKind.localVariable) :
    declare_local cx st (FunctionDebugContext.regularContext data)
        variable_name variable_type scope_metadata variable_access
        variable_kind span =
      Except.error "assertion failed: source_locations_enabled must still be false" := by
  unfold declare_local FunctionDebugContext.get_ref
  cases variable_kind with
  | argumentVariable index => simp [hflag]
  | localVariable => exact absurd rfl hkind
  | capturedVariable => simp [hflag]

theorem declare_local_local_kind (cx : CodegenCx) (st : DebugState)
    (data : FunctionDebugContextData) (variable_name : String)
    (variable_type : Ty) (scope_metadata : Node)
    (variable_access : VariableAccess) (span : Span)
    (fm : Node) (st1 : DebugState) (e1 : List Event)
    (hfm : file_metadata st span.file data.defining_crate = (fm, st1, e1))
    (tm : Node) (st2 : DebugState) (e2 : List Event)
    (htm : type_metadata st1 variable_type = (tm, st2, e2)) :
    declare_local cx st (FunctionDebugContext.regularContext data)
        variable_name variable_type scope_metadata variable_access
        VariableKind.localVariable span =
      Except.ok (st2,
        e1 ++ e2 ++
          [Event.createVariable (mk_variable_node cx variable_name
             variable_type scope_metadata VariableKind.localVariable span fm tm),
           Event.setDebugLocation (some (scope_metadata, span.line, span.col)),
           Event.insertDeclare (access_alloca variable_access)
             (mk_variable_node cx variable_name variable_type scope_metadata
               VariableKind.localVariable span fm tm)
             (access_ops variable_access)]) := by
  unfold declare_local FunctionDebugContext.get_ref
  simp only [hfm, htm]
  cases variable_access <;>
    simp [mk_variable_node, variable_tag, variable_index, access_alloca,
      access_ops]

theorem file_metadata_fst (st : DebugState) (f k : Nat) :
    (file_metadata st f k).1 = Node.fileNode f k := by
  unfold file_metadata
  split <;> rfl

theorem return_type_entry_ne (o : Ty) (h : ¬ o = Ty.tuple TyList.nil) :
    return_type_entry o = some (Node.typeNode o) := by
  match o, h with
  | Ty.u8, _ => rfl
  | Ty.tuple TyList.nil, h => exact absurd rfl h
  | Ty.tuple (TyList.cons a as), _ => rfl
  | Ty.array _ _, _ => rfl
  | Ty.adt _ _, _ => rfl
  | Ty.immPtr _, _ => rfl
  | Ty.prim _ _, _ => rfl

theorem beq_u8_iff (ct : Ty) : (ct == Ty.u8) = true ↔ ct = Ty.u8 := by
  cases ct with
  | u8 => simp [BEq.beq, Ty.beq]
  | tuple tys => cases tys <;> simp [BEq.beq, Ty.beq]
  | array e n => simp [BEq.beq, Ty.beq]
  | adt i b => simp [BEq.beq, Ty.beq]
  | immPtr e => simp [BEq.beq, Ty.beq]
  | prim i b => simp [BEq.beq, Ty.beq]

theorem msvc_arg_substitution_array (ct : Ty) (len : Nat)
    (h : ct = Ty.u8 ∨ is_zst ct = true) :
    msvc_arg_substitution (Ty.array ct len) = Ty.immPtr ct := by
  unfold msvc_arg_substitution
  rcases h with h | h
  · subst h
    simp [BEq.beq, Ty.beq]
  · simp [h]

theorem msvc_arg_substitution_array_id (ct : Ty) (len : Nat)
    (h1 : ¬ ct = Ty.u8) (h2 : is_zst ct = false) :
    msvc_arg_substitution (Ty.array ct len) = Ty.array ct len := by
  unfold msvc_arg_substitution
  have hb : (ct == Ty.u8) = false := by
    cases hb : (ct == Ty.u8) with
    | false => rfl
    | true => exact absurd ((beq_u8_iff ct).mp hb) h1
  simp [hb, h2]

theorem msvc_arg_substitution_non_array (t : Ty)
    (h : ∀ ct len, ¬ t = Ty.array ct len) :
    msvc_arg_substitution t = t := by
  match t, h with
  | Ty.u8, _ => rfl
  | Ty.tuple tys, _ => rfl
  | Ty.array ct len, h => exact absurd rfl (h ct len)
  | Ty.adt _ _, _ => rfl
  | Ty.immPtr _, _ => rfl
  | Ty.prim _ _, _ => rfl

/-- Claim C9: finalize is a no-op when the compilation unit has no debug
context; otherwise it finalizes and then disposes the builder, writes a Dwarf
Version flag of 2 only for OSX-like or Android-like targets, writes a CodeView
flag of 1 only for MSVC-like targets, and always writes the Debug Info Version
module flag. -/
theorem claim_C9 (cx : CodegenCx) :
    (cx.dbgCxPresent = false → finalize cx = []) ∧
    (cx.dbgCxPresent = true →
      (finalize cx).filter (fun e => e.isBuilderFinalize || e.isBuilderDispose) =
        [Event.builderFinalize, Event.builderDispose] ∧
      module_flags (finalize cx) =
        (if cx.isLikeOsx || cx.isLikeAndroid then [("Dwarf Version", 2)] else [])
          ++ (if cx.isLikeMsvc then [("CodeView", 1)] else [])
          ++ [("Debug Info Version", cx.debugMetadataVersion)]) := by
  constructor
  · intro hp
    simp [finalize, hp]
  · intro hp
    cases hg : cx.needsGdbScripts <;> cases ho : cx.isLikeOsx <;>
      cases ha : cx.isLikeAndroid <;> cases hm : cx.isLikeMsvc <;>
      simp [finalize, module_flags, hp, hg, ho, ha, hm,
        Event.isBuilderFinalize, Event.isBuilderDispose]

/-- Witness for claim C9 at concrete contexts: a unit without a debug context
is a no-op, and an OSX-like unit writes the Dwarf Version flag followed by the
always-written Debug Info Version flag. -/
theorem claim_C9_witness :
    finalize cxNoDbg = [] ∧
    module_flags (finalize cxOsx) =
      [("Dwarf Version", 2), ("Debug Info Version", 3)] := by
  constructor
  · exact (claim_C9 cxNoDbg).1 rfl
  · have h := ((claim_C9 cxOsx).2 rfl).2
    simpa using h

/-- Claim C2: the parameter-type array passed to the subroutine-type builder
call has the return type at index 0, a unit return encoded as a null entry,
and under limited debug-info mode the array is empty. -/
theorem claim_C2 (cx : CodegenCx) (st : DebugState) (sig : FnSig) :
    (cx.debuginfo = DebugInfoLevel.limited →
      get_function_signature cx st sig = ([], st, [])) ∧
    (¬ cx.debuginfo = DebugInfoLevel.limited →
      (get_function_signature cx st sig).1.head? =
        some (return_type_entry sig.output) ∧
      return_type_entry (Ty.tuple TyList.nil) = none ∧
      (¬ sig.output = Ty.tuple TyList.nil →
        (get_function_signature cx st sig).1.head? =
          some (some (Node.typeNode sig.output)))) := by
  refine ⟨fun hlim => ?_, fun h => ⟨?_, rfl, fun hne => ?_⟩⟩
  · unfold get_function_signature
    rw [if_pos hlim]
  · rw [get_function_signature_fst cx st sig h]
    rfl
  · rw [get_function_signature_fst cx st sig h,
      return_type_entry_ne sig.output hne]
    rfl

/-- Witness for claim C2: a unit-returning signature gets a null index-0
entry, a u8-returning one gets its type node, and the limited mode yields the
empty array. -/
theorem claim_C2_witness :
    get_function_signature cxLim st0 sig0 = ([], st0, []) ∧
    (get_function_signature cx0 st0 sigArr).1.head? = some none ∧
    (get_function_signature cx0 st0 sig0).1.head? =
      some (some (Node.typeNode Ty.u8)) := by
  refine ⟨(claim_C2 cxLim st0 sig0).1 rfl, ?_, ?_⟩
  · have h := (((claim_C2 cx0 st0 sigArr).2 (by decide)).1)
    simpa using h
  · exact ((claim_C2 cx0 st0 sig0).2 (by decide)).2.2
      (fun hh => Ty.noConfusion hh)

/-- Counterexample to claim C3 as stated: on an MSVC-like target a signature
argument whose type is zero-sized but not an array (the unit type) is passed
through unchanged to type metadata, not represented as an immutable pointer:
no entry of the resulting signature array is a pointer type node. -/
theorem claim_C3_counterexample :
    is_zst (Ty.tuple TyList.nil) = true ∧
    cxMsvc.isLikeMsvc = true ∧
    (get_function_signature cxMsvc st0 sigZst).1 =
      [some (Node.typeNode Ty.u8), some (Node.typeNode (Ty.tuple TyList.nil))] ∧
    (get_function_signature cxMsvc st0 sigZst).1.map entry_is_imm_ptr =
      [false, false] :=
  ⟨rfl, rfl, rfl, rfl⟩

/-- Claim C3 (amended): on MSVC-like targets only, every signature argument
whose type is a fixed-size array with u8 or zero-sized element type is
represented as an immutable pointer to the element type; all other argument
types (including non-array zero-sized types) are passed through to type
metadata unchanged, and on non-MSVC targets every argument type is passed
through unchanged. -/
theorem claim_C3 (cx : CodegenCx) (st : DebugState) (sig : FnSig)
    (h : ¬ cx.debuginfo = DebugInfoLevel.limited) :
    (get_function_signature cx st sig).1 =
      return_type_entry sig.output ::
        ((rc_inputs sig).map fun t => some (Node.typeNode (arg_transform cx t))) ++
        ((rust_call_unpacked sig).map fun t => some (Node.typeNode t)) ∧
    (cx.isLikeMsvc = false → ∀ t, arg_transform cx t = t) ∧
    (cx.isLikeMsvc = true →
      (∀ ct len, (ct = Ty.u8 ∨ is_zst ct = true) →
        arg_transform cx (Ty.array ct len) = Ty.immPtr ct) ∧
      (∀ ct len, ¬ ct = Ty.u8 → is_zst ct = false →
        arg_transform cx (Ty.array ct len) = Ty.array ct len) ∧
      (∀ t, (∀ ct len, ¬ t = Ty.array ct len) → arg_transform cx t = t)) := by
  refine ⟨get_function_signature_fst cx st sig h, fun hm t => ?_,
    fun hm => ⟨fun ct len hc => ?_, fun ct len h1 h2 => ?_, fun t ht => ?_⟩⟩
  · simp [arg_transform, hm]
  · simp [arg_transform, hm, msvc_arg_substitution_array ct len hc]
  · simp [arg_transform, hm, msvc_arg_substitution_array_id ct len h1 h2]
  · simp [arg_transform, hm, msvc_arg_substitution_non_array t ht]

/-- Witness for claim C3 (amended) on a concrete MSVC-like signature: the u8
array and the array of zero-sized elements become immutable pointers, the
ordinary array and the unit argument pass through unchanged. -/
theorem claim_C3_witness :
    (get_function_signature cxMsvc st0 sigArr).1 =
      [none,
       some (Node.typeNode (Ty.immPtr Ty.u8)),
       some (Node.typeNode (Ty.immPtr (Ty.tuple TyList.nil))),
       some (Node.typeNode (Ty.array (Ty.prim 0 false) 2)),
       some (Node.typeNode (Ty.tuple TyList.nil))] ∧
    arg_transform cxMsvc (Ty.array Ty.u8 4) = Ty.immPtr Ty.u8 ∧
    arg_transform cxMsvc (Ty.array (Ty.tuple TyList.nil) 7) = Ty.immPtr (Ty.tuple TyList.nil) ∧
    arg_transform cxMsvc (Ty.array (Ty.prim 0 false) 2) =
      Ty.array (Ty.prim 0 false) 2 ∧
    arg_transform cxMsvc (Ty.tuple TyList.nil) = Ty.tuple TyList.nil := by
  have h := claim_C3 cxMsvc st0 sigArr (by decide)
  refine ⟨?_, ?_, ?_, ?_, ?_⟩
  · rw [h.1]
    rfl
  · exact (h.2.2 rfl).1 Ty.u8 4 (Or.inl rfl)
  · exact (h.2.2 rfl).1 (Ty.tuple TyList.nil) 7 (Or.inr rfl)
  · exact (h.2.2 rfl).2.1 (Ty.prim 0 false) 2 (fun hh => Ty.noConfusion hh) rfl
  · exact (h.2.2 rfl).2.2 (Ty.tuple TyList.nil)
      (fun ct len hct => Ty.noConfusion hct)

/-- Claim C4: for a rust-call signature whose last declared parameter is a
tuple, that parameter is unpacked into one signature entry per tuple element,
and the entries preserve the order of the declared parameters. -/
theorem claim_C4 (cx : CodegenCx) (st : DebugState) (output : Ty)
    (front : List Ty) (targs : TyList)
    (h : ¬ cx.debuginfo = DebugInfoLevel.limited) :
    (get_function_signature cx st
        ⟨front ++ [Ty.tuple targs], output, Abi.rustCall⟩).1 =
      return_type_entry output ::
        (front.map fun t => some (Node.typeNode (arg_transform cx t))) ++
        (targs.toList.map fun t => some (Node.typeNode t)) := by
  rw [get_function_signature_fst cx st _ h]
  have hrc : rc_inputs ⟨front ++ [Ty.tuple targs], output, Abi.rustCall⟩ =
      front := by
    simp [rc_inputs, List.dropLast_concat]
  have hup : rust_call_unpacked
      ⟨front ++ [Ty.tuple targs], output, Abi.rustCall⟩ = targs.toList := by
    simp [rust_call_unpacked, List.getLast?_concat]
  rw [hrc, hup]

/-- Witness for claim C4 at a concrete rust-call signature: the trailing tuple
(u8, prim) is unpacked into two entries after the leading u8 parameter. -/
theorem claim_C4_witness :
    (get_function_signature cx0 st0 sigRC).1 =
      [none, some (Node.typeNode Ty.u8), some (Node.typeNode Ty.u8),
       some (Node.typeNode (Ty.prim 0 false))] := by
  have h := claim_C4 cx0 st0 (Ty.tuple TyList.nil) [Ty.u8]
    (TyList.cons Ty.u8 (TyList.cons (Ty.prim 0 false) TyList.nil)) (by decide)
  calc (get_function_signature cx0 st0 sigRC).1
      = (get_function_signature cx0 st0
          ⟨[Ty.u8] ++
             [Ty.tuple (TyList.cons Ty.u8
               (TyList.cons (Ty.prim 0 false) TyList.nil))],
            Ty.tuple TyList.nil, Abi.rustCall⟩).1 := rfl
    _ = _ := by rw [h]; rfl

/-- Claim C5: for a generic instantiation the display name is suffixed with
the comma-separated normalized substituted type names in order; under full
debug info exactly one template-parameter node is created per type argument,
positionally zipped with the name list, which walks the enclosing-generics
chain parent parameters first; under limited mode zero template-parameter
nodes are created while the suffix is still appended. -/
theorem claim_C5 (cx : CodegenCx) (st : DebugState) (g : Generics)
    (substs : List Ty) (fm : Node) (nm : String) :
    (substs.isEmpty = false →
      (get_template_parameters cx st g substs fm nm).2.1 =
        nm ++ "<" ++ String.intercalate ","
          (substs.map fun t => cx.typeName (cx.normalize t)) ++ ">") ∧
    (cx.debuginfo = DebugInfoLevel.full →
      (get_template_parameters cx st g substs fm nm).1 =
        (substs.zip (get_type_parameter_names g)).map (fun p =>
          Node.templateTypeParameterNode p.2
            (Node.typeNode (cx.normalize p.1)) fm) ∧
      ((get_type_parameter_names g).length = substs.length →
        ((get_template_parameters cx st g substs fm nm).2.2.2).countP
            Event.isCreateTemplateTypeParameter = substs.length)) ∧
    (cx.debuginfo = DebugInfoLevel.limited →
      (get_template_parameters cx st g substs fm nm).1 = [] ∧
      ((get_template_parameters cx st g substs fm nm).2.2.2).countP
          Event.isCreateTemplateTypeParameter = 0) ∧
    (∀ parent types,
      get_type_parameter_names (Generics.nested parent types) =
        get_type_parameter_names parent ++ types) := by
  refine ⟨fun hne => get_template_parameters_name cx st g substs fm nm hne,
    fun hfull =>
      ⟨get_template_parameters_fst_full cx st g substs fm nm hfull,
       fun hlen => ?_⟩,
    fun hlim => ?_, fun parent types => rfl⟩
  · rw [get_template_parameters_count_full cx st g substs fm nm hfull,
      List.length_zip, hlen, Nat.min_self]
  · have hnf : ¬ cx.debuginfo = DebugInfoLevel.full := by
      rw [hlim]
      intro hc
      exact DebugInfoLevel.noConfusion hc
    have h := get_template_parameters_not_full cx st g substs fm nm hnf
    exact ⟨h.1, by rw [h.2]; rfl⟩

/-- Witness for claim C5 at a three-argument instantiation over the generics
chain P (parent); T, U (own): the suffix is appended, three template nodes
are created zipped with the names in parent-first order, and none are created
under limited mode. -/
theorem claim_C5_witness :
    (get_template_parameters cx0 st0 genG
        [Ty.u8, Ty.tuple TyList.nil, Ty.prim 1 false]
        (Node.fileNode 1 0) "f").2.1 = "f<T,T,T>" ∧
    (get_template_parameters cx0 st0 genG
        [Ty.u8, Ty.tuple TyList.nil, Ty.prim 1 false]
        (Node.fileNode 1 0) "f").1 =
      [Node.templateTypeParameterNode "P" (Node.typeNode Ty.u8)
         (Node.fileNode 1 0),
       Node.templateTypeParameterNode "T" (Node.typeNode (Ty.tuple TyList.nil))
         (Node.fileNode 1 0),
       Node.templateTypeParameterNode "U" (Node.typeNode (Ty.prim 1 false))
         (Node.fileNode 1 0)] ∧
    ((get_template_parameters cx0 st0 genG
        [Ty.u8, Ty.tuple TyList.nil, Ty.prim 1 false]
        (Node.fileNode 1 0) "f").2.2.2).countP
      Event.isCreateTemplateTypeParameter = 3 ∧
    (get_template_parameters cxLim st0 genG
        [Ty.u8, Ty.tuple TyList.nil, Ty.prim 1 false]
        (Node.fileNode 1 0) "f").1 = [] ∧
    ((get_template_parameters cxLim st0 genG
        [Ty.u8, Ty.tuple TyList.nil, Ty.prim 1 false]
        (Node.fileNode 1 0) "f").2.2.2).countP
      Event.isCreateTemplateTypeParameter = 0 ∧
    get_type_parameter_names genG = ["P", "T", "U"] := by
  have h := claim_C5 cx0 st0 genG [Ty.u8, Ty.tuple TyList.nil, Ty.prim 1 false]
    (Node.fileNode 1 0) "f"
  have hlim := claim_C5 cxLim st0 genG
    [Ty.u8, Ty.tuple TyList.nil, Ty.prim 1 false] (Node.fileNode 1 0) "f"
  refine ⟨?_, ?_, (h.2.1 rfl).2 rfl, (hlim.2.2.1 rfl).1, (hlim.2.2.1 rfl).2, ?_⟩
  · rw [h.1 rfl]
    rfl
  · rw [(h.2.1 rfl).1]
    rfl
  · calc get_type_parameter_names genG
        = get_type_parameter_names
            (Generics.nested (Generics.root ["P"]) ["T", "U"]) := rfl
      _ = get_type_parameter_names (Generics.root ["P"]) ++ ["T", "U"] :=
          h.2.2.2 (Generics.root ["P"]) ["T", "U"]
      _ = ["P", "T", "U"] := rfl

/-- Claim C6: get_containing_scope maps an inherent (non-trait-impl) method
whose self type is a non-box nominal ADT to that type's own metadata node;
every other function (trait-impl methods, free functions, methods on non-ADT
or Box self types) resolves to the parallel namespace derived from the
definition's lexical parent id; a definition with no lexical parent id
reaching the namespace path is a fatal internal error. -/
theorem claim_C6 (cx : CodegenCx) (st : DebugState) (inst : Instance) :
    (∀ impl_def_id, cx.implOfMethod inst.defId = some impl_def_id →
      cx.traitIdOfImpl impl_def_id = none →
      is_non_box_adt (cx.transImplSelfTy impl_def_id inst.substs) = true →
      impl_self_type cx inst =
        some (cx.transImplSelfTy impl_def_id inst.substs)) ∧
    (∀ impl_def_id, cx.implOfMethod inst.defId = some impl_def_id →
      cx.traitIdOfImpl impl_def_id = none →
      is_non_box_adt (cx.transImplSelfTy impl_def_id inst.substs) = false →
      impl_self_type cx inst = none) ∧
    (∀ impl_def_id traitId, cx.implOfMethod inst.defId = some impl_def_id →
      cx.traitIdOfImpl impl_def_id = some traitId →
      impl_self_type cx inst = none) ∧
    (cx.implOfMethod inst.defId = none → impl_self_type cx inst = none) ∧
    (∀ t, impl_self_type cx inst = some t →
      get_containing_scope cx st inst = Except.ok (type_metadata st t) ∧
      (type_metadata st t).1 = Node.typeNode t) ∧
    (impl_self_type cx inst = none →
      (∀ parentIndex, cx.defKeyParent inst.defId = some parentIndex →
        get_containing_scope cx st inst =
          Except.ok (item_namespace st ⟨inst.defId.krate, parentIndex⟩) ∧
        (item_namespace st ⟨inst.defId.krate, parentIndex⟩).1 =
          Node.namespaceNode ⟨inst.defId.krate, parentIndex⟩) ∧
      (cx.defKeyParent inst.defId = none →
        get_containing_scope cx st inst =
          Except.error "get_containing_scope: missing parent?")) := by
  refine ⟨fun i h1 h2 h3 => ?_, fun i h1 h2 h3 => ?_,
    fun i traitId h1 h2 => ?_, fun h1 => ?_, fun t hself => ⟨?_, ?_⟩,
    fun hself => ⟨fun parentIndex hp => ⟨?_, ?_⟩, fun hp => ?_⟩⟩
  · cases hty : cx.transImplSelfTy i inst.substs with
    | adt id isBox =>
      rw [hty] at h3
      simp only [is_non_box_adt, Bool.not_eq_true'] at h3
      simp [impl_self_type, h1, h2, hty, h3]
    | u8 => rw [hty] at h3; simp [is_non_box_adt] at h3
    | tuple tys => rw [hty] at h3; simp [is_non_box_adt] at h3
    | array e n => rw [hty] at h3; simp [is_non_box_adt] at h3
    | immPtr e => rw [hty] at h3; simp [is_non_box_adt] at h3
    | prim id z => rw [hty] at h3; simp [is_non_box_adt] at h3
  · cases hty : cx.transImplSelfTy i inst.substs with
    | adt id isBox =>
      rw [hty] at h3
      simp only [is_non_box_adt, Bool.not_eq_false] at h3
      simp [impl_self_type, h1, h2, hty, h3]
    | u8 => simp [impl_self_type, h1, h2, hty]
    | tuple tys => simp [impl_self_type, h1, h2, hty]
    | array e n => simp [impl_self_type, h1, h2, hty]
    | immPtr e => simp [impl_self_type, h1, h2, hty]
    | prim id z => simp [impl_self_type, h1, h2, hty]
  · simp [impl_self_type, h1, h2]
  · simp [impl_self_type, h1]
  · unfold get_containing_scope
    rw [hself]
  · exact type_metadata_fst st t
  · unfold get_containing_scope
    rw [hself, hp]
  · exact item_namespace_fst st ⟨inst.defId.krate, parentIndex⟩
  · unfold get_containing_scope
    rw [hself, hp]

/-- Witness for claim C6: an inherent method on the non-box ADT 3 is scoped
to that type's metadata node; a free function is scoped to the namespace of
its parent definition; a definition without a parent is a fatal error. -/
theorem claim_C6_witness :
    impl_self_type cxInherent inst0 = some (Ty.adt 3 false) ∧
    get_containing_scope cxInherent st0 inst0 =
      Except.ok (type_metadata st0 (Ty.adt 3 false)) ∧
    (type_metadata st0 (Ty.adt 3 false)).1 = Node.typeNode (Ty.adt 3 false) ∧
    impl_self_type cx0 inst0 = none ∧
    get_containing_scope cx0 st0 inst0 =
      Except.ok (item_namespace st0 ⟨0, 0⟩) ∧
    get_containing_scope cxNoParent st0 inst0 =
      Except.error "get_containing_scope: missing parent?" := by
  have hI := claim_C6 cxInherent st0 inst0
  have h0 := claim_C6 cx0 st0 inst0
  have hN := claim_C6 cxNoParent st0 inst0
  have hself : impl_self_type cxInherent inst0 = some (Ty.adt 3 false) :=
    hI.1 ⟨0, 7⟩ rfl rfl rfl
  refine ⟨hself, (hI.2.2.2.2.1 (Ty.adt 3 false) hself).1,
    (hI.2.2.2.2.1 (Ty.adt 3 false) hself).2, h0.2.2.2.1 rfl, ?_, ?_⟩
  · exact ((h0.2.2.2.2.2 (h0.2.2.2.1 rfl)).1 0 rfl).1
  · exact (hN.2.2.2.2.2 (hN.2.2.2.1 rfl)).2 rfl

theorem countP_createVariable_file_type (e1 e2 : List Event)
    (h1 : ∀ e ∈ e1, e.isCreateFile = true)
    (h2 : ∀ e ∈ e2, e.isCreateTypeNode = true) :
    (e1 ++ e2).countP Event.isCreateVariable = 0 := by
  rw [List.countP_append,
    countP_zero_of_all e1 h1 (fun e he => by
      cases e <;> simp_all [Event.isCreateFile, Event.isCreateVariable]),
    countP_zero_of_all e2 h2 (fun e he => by
      cases e <;> simp_all [Event.isCreateTypeNode, Event.isCreateVariable])]

theorem countP_insertDeclare_file_type (e1 e2 : List Event)
    (h1 : ∀ e ∈ e1, e.isCreateFile = true)
    (h2 : ∀ e ∈ e2, e.isCreateTypeNode = true) :
    (e1 ++ e2).countP Event.isInsertDeclare = 0 := by
  rw [List.countP_append,
    countP_zero_of_all e1 h1 (fun e he => by
      cases e <;> simp_all [Event.isCreateFile, Event.isInsertDeclare]),
    countP_zero_of_all e2 h2 (fun e he => by
      cases e <;> simp_all [Event.isCreateTypeNode, Event.isInsertDeclare])]

theorem countP_clear_file_type (e1 e2 : List Event)
    (h1 : ∀ e ∈ e1, e.isCreateFile = true)
    (h2 : ∀ e ∈ e2, e.isCreateTypeNode = true) :
    (e1 ++ e2).countP Event.isClearDebugLocation = 0 := by
  rw [List.countP_append,
    countP_zero_of_all e1 h1 (fun e he => by
      cases e <;> simp_all [Event.isCreateFile, Event.isClearDebugLocation]),
    countP_zero_of_all e2 h2 (fun e he => by
      cases e <;> simp_all [Event.isCreateTypeNode,
        Event.isClearDebugLocation])]

/-- Claim C7: every successful declare_local call creates exactly one variable
node — carrying the argument DWARF tag and the given index for
ArgumentVariable, the automatic tag and index 0 for LocalVariable and
CapturedVariable — and inserts exactly one declare marker, bound to the raw
storage location with an empty address-operation list for Direct access and
with the provided address-operation chain for Indirect access. -/
theorem claim_C7 (cx : CodegenCx) (st : DebugState)
    (data : FunctionDebugContextData) (variable_name : String)
    (variable_type : Ty) (scope_metadata : Node)
    (variable_access : VariableAccess) (variable_kind : VariableKind)
    (span : Span) (st' : DebugState) (evs : List Event)
    (h : declare_local cx st (FunctionDebugContext.regularContext data)
        variable_name variable_type scope_metadata variable_access
        variable_kind span = Except.ok (st', evs)) :
    evs.countP Event.isCreateVariable = 1 ∧
    Event.createVariable (mk_variable_node cx variable_name variable_type
      scope_metadata variable_kind span
      (Node.fileNode span.file data.defining_crate)
      (Node.typeNode variable_type)) ∈ evs ∧
    (∀ index, variable_kind = VariableKind.argumentVariable index →
      variable_tag variable_kind = DW_TAG_arg_variable ∧
      variable_index variable_kind = index) ∧
    (variable_kind = VariableKind.localVariable ∨
       variable_kind = VariableKind.capturedVariable →
      variable_tag variable_kind = DW_TAG_auto_variable ∧
      variable_index variable_kind = 0) ∧
    evs.countP Event.isInsertDeclare = 1 ∧
    Event.insertDeclare (access_alloca variable_access)
      (mk_variable_node cx variable_name variable_type scope_metadata
        variable_kind span (Node.fileNode span.file data.defining_crate)
        (Node.typeNode variable_type))
      (access_ops variable_access) ∈ evs ∧
    (∀ alloca, variable_access = VariableAccess.directVariable alloca →
      access_ops variable_access = [] ∧
      access_alloca variable_access = alloca) ∧
    (∀ alloca ops,
      variable_access = VariableAccess.indirectVariable alloca ops →
      access_ops variable_access = ops ∧
      access_alloca variable_access = alloca) := by
  rcases hfm : file_metadata st span.file data.defining_crate with ⟨fm, st1, e1⟩
  rcases htm : type_metadata st1 variable_type with ⟨tm, st2, e2⟩
  have hfm1 : fm = Node.fileNode span.file data.defining_crate := by
    have hf := file_metadata_fst st span.file data.defining_crate
    rw [hfm] at hf
    exact hf
  have htm1 : tm = Node.typeNode variable_type := by
    have ht := type_metadata_fst st1 variable_type
    rw [htm] at ht
    exact ht
  have he1 : ∀ e ∈ e1, e.isCreateFile = true := by
    have hf := file_metadata_events st span.file data.defining_crate
    rw [hfm] at hf
    exact hf
  have he2 : ∀ e ∈ e2, e.isCreateTypeNode = true := by
    have ht := type_metadata_events st1 variable_type
    rw [htm] at ht
    exact ht
  subst hfm1
  subst htm1
  have hevs : evs =
      e1 ++ e2 ++
        [Event.createVariable (mk_variable_node cx variable_name
           variable_type scope_metadata variable_kind span
           (Node.fileNode span.file data.defining_crate)
           (Node.typeNode variable_type)),
         Event.setDebugLocation (some (scope_metadata, span.line, span.col)),
         Event.insertDeclare (access_alloca variable_access)
           (mk_variable_node cx variable_name variable_type scope_metadata
             variable_kind span (Node.fileNode span.file data.defining_crate)
             (Node.typeNode variable_type))
           (access_ops variable_access)] ++
        reset_events variable_kind := by
    cases variable_kind with
    | localVariable =>
      have hl := declare_local_local_kind cx st data variable_name
        variable_type scope_metadata variable_access span _ _ _ hfm _ _ _ htm
      rw [hl] at h
      have hpair := Except.ok.inj h
      have hevs := congrArg Prod.snd hpair
      simp only [reset_events, List.append_nil]
      exact hevs.symm
    | argumentVariable index =>
      cases hflag : data.source_locations_enabled with
      | true =>
        have hv := declare_local_assert_violation cx st data variable_name
          variable_type scope_metadata variable_access
          (VariableKind.argumentVariable index) span hflag
          (fun hc => VariableKind.noConfusion hc)
        rw [hv] at h
        exact absurd h (by simp)
      | false =>
        have hr := declare_local_regular cx st data variable_name
          variable_type scope_metadata variable_access
          (VariableKind.argumentVariable index) span hflag _ _ _ hfm _ _ _ htm
        rw [hr] at h
        have hpair := Except.ok.inj h
        exact (congrArg Prod.snd hpair).symm
    | capturedVariable =>
      cases hflag : data.source_locations_enabled with
      | true =>
        have hv := declare_local_assert_violation cx st data variable_name
          variable_type scope_metadata variable_access
          VariableKind.capturedVariable span hflag
          (fun hc => VariableKind.noConfusion hc)
        rw [hv] at h
        exact absurd h (by simp)
      | false =>
        have hr := declare_local_regular cx st data variable_name
          variable_type scope_metadata variable_access
          VariableKind.capturedVariable span hflag _ _ _ hfm _ _ _ htm
        rw [hr] at h
        have hpair := Except.ok.inj h
        exact (congrArg Prod.snd hpair).symm
  subst hevs
  refine ⟨?_, by simp, fun index hk => by subst hk; exact ⟨rfl, rfl⟩,
    fun hk => ?_, ?_, by simp,
    fun alloca ha => by subst ha; exact ⟨rfl, rfl⟩,
    fun alloca ops ha => by subst ha; exact ⟨rfl, rfl⟩⟩
  · rw [List.countP_append, List.countP_append,
      countP_createVariable_file_type e1 e2 he1 he2]
    cases variable_kind <;>
      simp [reset_events, List.countP_cons, Event.isCreateVariable]
  · rcases hk with hk | hk <;> subst hk <;> exact ⟨rfl, rfl⟩
  · rw [List.countP_append, List.countP_append,
      countP_insertDeclare_file_type e1 e2 he1 he2]
    cases variable_kind <;>
      simp [reset_events, List.countP_cons, Event.isInsertDeclare]

/-- Witness for claim C7 at a concrete indirect argument declaration: the
trace contains exactly one variable node carrying the argument tag and index
1, and one declare marker carrying the address-operation chain. -/
theorem claim_C7_witness :
    evs7.countP Event.isCreateVariable = 1 ∧
    Event.createVariable md7 ∈ evs7 ∧
    variable_tag (VariableKind.argumentVariable 1) = DW_TAG_arg_variable ∧
    variable_index (VariableKind.argumentVariable 1) = 1 ∧
    evs7.countP Event.isInsertDeclare = 1 ∧
    Event.insertDeclare 5 md7 [8, 0] ∈ evs7 ∧
    access_ops (VariableAccess.indirectVariable 5 [8, 0]) = [8, 0] := by
  have h := claim_C7 cx0 st0 data0 "x" Ty.u8 (Node.namespaceNode ⟨0, 0⟩)
    (VariableAccess.indirectVariable 5 [8, 0])
    (VariableKind.argumentVariable 1) span1 ⟨[Ty.u8], [], [(1, 0)]⟩ evs7 rfl
  exact ⟨h.1, h.2.1, (h.2.2.1 1 rfl).1, (h.2.2.1 1 rfl).2, h.2.2.2.2.1,
    h.2.2.2.2.2.1, (h.2.2.2.2.2.2.2 5 [8, 0] rfl).1⟩

theorem create_fdc_flag_false (cx : CodegenCx) (st : DebugState)
    (inst : Instance) (sig : FnSig) (mirSpan : Span)
    (res : FunctionDebugContext) (st' : DebugState) (evs : List Event)
    (h : create_function_debug_context cx st inst sig mirSpan =
      Except.ok (res, st', evs)) :
    res.srcLocFlag? = none ∨ res.srcLocFlag? = some false := by
  unfold create_function_debug_context at h
  split at h
  · left
    simp only [Except.ok.injEq, Prod.mk.injEq] at h
    rw [← h.1]
    rfl
  · split at h
    · left
      simp only [Except.ok.injEq, Prod.mk.injEq] at h
      rw [← h.1]
      rfl
    · split at h
      · exact absurd h (by simp)
      · split at h
        · left
          simp only [Except.ok.injEq, Prod.mk.injEq] at h
          rw [← h.1]
          rfl
        · right
          simp only [Except.ok.injEq, Prod.mk.injEq] at h
          rw [← h.1]
          rfl

/-- Claim C8: the source-locations-enabled flag of a Regular function debug
context is initialized to false at creation; a declare_local call of
ArgumentVariable or CapturedVariable kind is a fatal contract violation when
the flag is already true, succeeds only with the flag false (which the call
never modifies), and ends by resetting the current debug location to unknown;
LocalVariable declarations perform neither the assertion nor the reset. -/
theorem claim_C8 (cx : CodegenCx) (st : DebugState)
    (data : FunctionDebugContextData) (variable_name : String)
    (variable_type : Ty) (scope_metadata : Node)
    (variable_access : VariableAccess) (span : Span) :
    (∀ inst sig mirSpan res st' evs,
      create_function_debug_context cx st inst sig mirSpan =
        Except.ok (res, st', evs) →
      res.isRegular = true → res.srcLocFlag? = some false) ∧
    (∀ variable_kind, ¬ variable_kind = VariableKind.localVariable →
      data.source_locations_enabled = true →
      declare_local cx st (FunctionDebugContext.regularContext data)
          variable_name variable_type scope_metadata variable_access
          variable_kind span =
        Except.error
          "assertion failed: source_locations_enabled must still be false") ∧
    (∀ variable_kind st' evs,
      ¬ variable_kind = VariableKind.localVariable →
      declare_local cx st (FunctionDebugContext.regularContext data)
          variable_name variable_type scope_metadata variable_access
          variable_kind span = Except.ok (st', evs) →
      data.source_locations_enabled = false ∧
      evs.getLast? = some (Event.setDebugLocation none)) ∧
    is_ok (declare_local cx st (FunctionDebugContext.regularContext data)
        variable_name variable_type scope_metadata variable_access
        VariableKind.localVariable span) = true ∧
    (∀ st' evs,
      declare_local cx st (FunctionDebugContext.regularContext data)
          variable_name variable_type scope_metadata variable_access
          VariableKind.localVariable span = Except.ok (st', evs) →
      evs.countP Event.isClearDebugLocation = 0) := by
  rcases hfm : file_metadata st span.file data.defining_crate with ⟨fm, st1, e1⟩
  rcases htm : type_metadata st1 variable_type with ⟨tm, st2, e2⟩
  have he1 : ∀ e ∈ e1, e.isCreateFile = true := by
    have hf := file_metadata_events st span.file data.defining_crate
    rw [hfm] at hf
    exact hf
  have he2 : ∀ e ∈ e2, e.isCreateTypeNode = true := by
    have ht := type_metadata_events st1 variable_type
    rw [htm] at ht
    exact ht
  have hlocal := declare_local_local_kind cx st data variable_name
    variable_type scope_metadata variable_access span _ _ _ hfm _ _ _ htm
  refine ⟨fun inst sig mirSpan res st' evs hc hreg => ?_,
    fun variable_kind hk hflag =>
      declare_local_assert_violation cx st data variable_name variable_type
        scope_metadata variable_access variable_kind span hflag hk,
    fun variable_kind st' evs hk h => ?_, ?_, fun st' evs h => ?_⟩
  · rcases create_fdc_flag_false cx st inst sig mirSpan res st' evs hc with
      hf | hf
    · cases res <;>
        simp_all [FunctionDebugContext.isRegular,
          FunctionDebugContext.srcLocFlag?]
    · exact hf
  · cases hflag : data.source_locations_enabled with
    | true =>
      have hv := declare_local_assert_violation cx st data variable_name
        variable_type scope_metadata variable_access variable_kind span
        hflag hk
      rw [hv] at h
      exact absurd h (by simp)
    | false =>
      refine ⟨rfl, ?_⟩
      have hr := declare_local_regular cx st data variable_name variable_type
        scope_metadata variable_access variable_kind span hflag _ _ _ hfm
        _ _ _ htm
      rw [hr] at h
      have hevs := (congrArg Prod.snd (Except.ok.inj h)).symm
      subst hevs
      cases variable_kind with
      | localVariable => exact absurd rfl hk
      | argumentVariable index =>
        simp only [reset_events]
        exact List.getLast?_concat _
      | capturedVariable =>
        simp only [reset_events]
        exact List.getLast?_concat _
  · rw [hlocal]
    rfl
  · rw [hlocal] at h
    have hevs := (congrArg Prod.snd (Except.ok.inj h)).symm
    subst hevs
    rw [List.countP_append, countP_clear_file_type e1 e2 he1 he2]
    simp [List.countP_cons, Event.isClearDebugLocation]

/-- Witness for claim C8 at concrete calls: the freshly created context for
inst0 has the flag false; an argument declaration against an enabled-flag
context is the assertion error; against a disabled-flag context it succeeds
with the flag still false and ends with the unknown-location reset; a local
declaration succeeds even against the enabled-flag context and its trace
contains no unknown-location reset. -/
theorem claim_C8_witness :
    (FunctionDebugContext.regularContext data1).srcLocFlag? = some false ∧
    declare_local cx0 st0 (FunctionDebugContext.regularContext dataT) "x"
        Ty.u8 (Node.namespaceNode ⟨0, 0⟩)
        (VariableAccess.indirectVariable 5 [8, 0])
        (VariableKind.argumentVariable 1) span1 =
      Except.error
        "assertion failed: source_locations_enabled must still be false" ∧
    data0.source_locations_enabled = false ∧
    evs7.getLast? = some (Event.setDebugLocation none) ∧
    is_ok (declare_local cx0 st0 (FunctionDebugContext.regularContext dataT)
        "x" Ty.u8 (Node.namespaceNode ⟨0, 0⟩)
        (VariableAccess.directVariable 5) VariableKind.localVariable span1) =
      true ∧
    ([Event.createFile 1 0, Event.createTypeNode Ty.u8,
      Event.createVariable (mk_variable_node cx0 "x" Ty.u8
        (Node.namespaceNode ⟨0, 0⟩) VariableKind.localVariable span1
        (Node.fileNode 1 0) (Node.typeNode Ty.u8)),
      Event.setDebugLocation (some (Node.namespaceNode ⟨0, 0⟩, 10, 2)),
      Event.insertDeclare 5 (mk_variable_node cx0 "x" Ty.u8
        (Node.namespaceNode ⟨0, 0⟩) VariableKind.localVariable span1
        (Node.fileNode 1 0) (Node.typeNode Ty.u8)) []]).countP
      Event.isClearDebugLocation = 0 := by
  have h0 := claim_C8 cx0 st0 data0 "x" Ty.u8 (Node.namespaceNode ⟨0, 0⟩)
    (VariableAccess.indirectVariable 5 [8, 0]) span1
  have hT := claim_C8 cx0 st0 dataT "x" Ty.u8 (Node.namespaceNode ⟨0, 0⟩)
    (VariableAccess.indirectVariable 5 [8, 0]) span1
  have hTd := claim_C8 cx0 st0 dataT "x" Ty.u8 (Node.namespaceNode ⟨0, 0⟩)
    (VariableAccess.directVariable 5) span1
  refine ⟨h0.1 inst0 sig0 span1 (FunctionDebugContext.regularContext data1)
      st3C evs1 rfl rfl,
    hT.2.1 (VariableKind.argumentVariable 1)
      (fun hc => VariableKind.noConfusion hc) rfl, ?_, ?_, hTd.2.2.2.1, ?_⟩
  · exact (h0.2.2.1 (VariableKind.argumentVariable 1) ⟨[Ty.u8], [], [(1, 0)]⟩
      evs7 (fun hc => VariableKind.noConfusion hc) rfl).1
  · exact (h0.2.2.1 (VariableKind.argumentVariable 1) ⟨[Ty.u8], [], [(1, 0)]⟩
      evs7 (fun hc => VariableKind.noConfusion hc) rfl).2
  · exact hTd.2.2.2.2 ⟨[Ty.u8], [], [(1, 0)]⟩ _ rfl

theorem create_fdc_scope_error (cx : CodegenCx) (st : DebugState)
    (inst : Instance) (sig : FnSig) (mirSpan : Span)
    (h1 : ¬ cx.debuginfo = DebugInfoLevel.no)
    (h2 : inst.attrs.contains "no_debug" = false)
    (e : String) (hgcs : get_containing_scope cx st inst = Except.error e) :
    create_function_debug_context cx st inst sig mirSpan = Except.error e := by
  unfold create_function_debug_context
  rw [if_neg h1]
  simp only [h2, Bool.false_eq_true, if_false, hgcs]

/-- Claim C1: create_function_debug_context applies a first-match decision
sequence: with debug info globally off it returns Disabled having made no
builder calls; otherwise a no_debug attribute returns Suppressed; otherwise a
dummy defining span returns Suppressed and no subprogram node is created;
otherwise it returns Regular wrapping the freshly created subprogram node. -/
theorem claim_C1 (cx : CodegenCx) (st : DebugState) (inst : Instance)
    (sig : FnSig) (mirSpan : Span) :
    (cx.debuginfo = DebugInfoLevel.no →
      create_function_debug_context cx st inst sig mirSpan =
        Except.ok (FunctionDebugContext.debugInfoDisabled, st, [])) ∧
    (¬ cx.debuginfo = DebugInfoLevel.no →
      inst.attrs.contains "no_debug" = true →
      create_function_debug_context cx st inst sig mirSpan =
        Except.ok (FunctionDebugContext.functionWithoutDebugInfo, st, [])) ∧
    (∀ res st' evs, ¬ cx.debuginfo = DebugInfoLevel.no →
      inst.attrs.contains "no_debug" = false → mirSpan = DUMMY_SP →
      create_function_debug_context cx st inst sig mirSpan =
        Except.ok (res, st', evs) →
      res = FunctionDebugContext.functionWithoutDebugInfo ∧
      evs.countP Event.isCreateFunction = 0) ∧
    (∀ res st' evs, ¬ cx.debuginfo = DebugInfoLevel.no →
      inst.attrs.contains "no_debug" = false → ¬ mirSpan = DUMMY_SP →
      create_function_debug_context cx st inst sig mirSpan =
        Except.ok (res, st', evs) →
      res.isRegular = true ∧
      evs.getLast? = res.fnMetadata?.map Event.createFunction ∧
      evs.countP Event.isCreateFunction = 1) := by
  refine ⟨fun h1 => create_fdc_disabled cx st inst sig mirSpan h1,
    fun h1 h2 => create_fdc_no_debug_attr cx st inst sig mirSpan h1 h2,
    fun res st' evs h1 h2 hsp h => ?_, fun res st' evs h1 h2 hsp h => ?_⟩
  · subst hsp
    rcases hgcs : get_containing_scope cx st inst with e | ⟨cs, st1, e1⟩
    · rw [create_fdc_scope_error cx st inst sig DUMMY_SP h1 h2 e hgcs] at h
      exact absurd h (by simp)
    · rw [create_fdc_dummy_span cx st inst sig h1 h2 cs st1 e1 hgcs] at h
      simp only [Except.ok.injEq, Prod.mk.injEq] at h
      refine ⟨h.1.symm, ?_⟩
      rw [← h.2.2]
      exact countP_zero_of_all e1
        (get_containing_scope_events cx st inst cs st1 e1 hgcs)
        (fun e he => by cases e <;> simp_all [Event.isCreateTypeNode,
          Event.isCreateNamespace, Event.isCreateFunction])
  · rcases hgcs : get_containing_scope cx st inst with e | ⟨cs, st1, e1⟩
    · rw [create_fdc_scope_error cx st inst sig mirSpan h1 h2 e hgcs] at h
      exact absurd h (by simp)
    · rcases hfm : file_metadata st1 mirSpan.file inst.defId.krate with
        ⟨fm, st2, e2⟩
      rcases hfs : get_function_signature cx st2 sig with ⟨fs, st3, e3⟩
      rcases htp : get_template_parameters cx st3
          (cx.genericsOf (cx.closureBaseDefId inst.defId)) inst.substs fm
          (cx.defKeyName inst.defId) with ⟨tps, nm, st4, e4⟩
      have he1 : ∀ e ∈ e1, (e.isCreateTypeNode || e.isCreateNamespace) = true :=
        get_containing_scope_events cx st inst cs st1 e1 hgcs
      have he2 : ∀ e ∈ e2, e.isCreateFile = true := by
        have hf := file_metadata_events st1 mirSpan.file inst.defId.krate
        rw [hfm] at hf
        exact hf
      have he3 : ∀ e ∈ e3, e.isCreateTypeNode = true := by
        have hf := get_function_signature_events cx st2 sig
        rw [hfs] at hf
        exact hf
      have he4 : ∀ e ∈ e4,
          (e.isCreateTypeNode || e.isCreateTemplateTypeParameter) = true := by
        have hf := get_template_parameters_events cx st3
          (cx.genericsOf (cx.closureBaseDefId inst.defId)) inst.substs fm
          (cx.defKeyName inst.defId)
        rw [htp] at hf
        exact hf
      rw [create_fdc_regular cx st inst sig mirSpan h1 h2 cs st1 e1 hgcs hsp
        fm st2 e2 hfm fs st3 e3 hfs tps nm st4 e4 htp] at h
      simp only [Except.ok.injEq, Prod.mk.injEq] at h
      obtain ⟨hres, hst, hevs⟩ := h
      subst hres
      subst hevs
      refine ⟨rfl, ?_, ?_⟩
      · rw [List.getLast?_concat]
        rfl
      · rw [List.countP_append, List.countP_append, List.countP_append,
          List.countP_append, List.countP_append,
          countP_zero_of_all e1 he1 (fun e he => by
            cases e <;> simp_all [Event.isCreateTypeNode,
              Event.isCreateNamespace, Event.isCreateFunction]),
          countP_zero_of_all e2 he2 (fun e he => by
            cases e <;> simp_all [Event.isCreateFile,
              Event.isCreateFunction]),
          countP_zero_of_all e3 he3 (fun e he => by
            cases e <;> simp_all [Event.isCreateTypeNode,
              Event.isCreateFunction]),
          countP_zero_of_all e4 he4 (fun e he => by
            cases e <;> simp_all [Event.isCreateTypeNode,
              Event.isCreateTemplateTypeParameter, Event.isCreateFunction])]
        simp [List.countP_cons, Event.isCreateFunction]

/-- Witness for claim C1 at concrete inputs: disabled debug info yields
Disabled with an empty trace; a no_debug attribute yields Suppressed with an
empty trace; a dummy span yields Suppressed with only the namespace-creation
call; a real span yields the Regular context whose subprogram node is the
final builder call. -/
theorem claim_C1_witness :
    create_function_debug_context cxNo st0 inst0 sig0 span1 =
      Except.ok (FunctionDebugContext.debugInfoDisabled, st0, []) ∧
    create_function_debug_context cx0 st0 instND sig0 span1 =
      Except.ok (FunctionDebugContext.functionWithoutDebugInfo, st0, []) ∧
    (FunctionDebugContext.functionWithoutDebugInfo =
        FunctionDebugContext.functionWithoutDebugInfo ∧
      ([Event.createNamespace ⟨0, 0⟩] : List Event).countP
        Event.isCreateFunction = 0) ∧
    ((FunctionDebugContext.regularContext data1).isRegular = true ∧
      evs1.getLast? =
        (FunctionDebugContext.regularContext data1).fnMetadata?.map
          Event.createFunction ∧
      evs1.countP Event.isCreateFunction = 1) := by
  have h := claim_C1 cx0 st0 inst0 sig0 span1
  have hd := claim_C1 cxNo st0 inst0 sig0 span1
  have hn := claim_C1 cx0 st0 instND sig0 span1
  have hdum := claim_C1 cx0 st0 inst0 sig0 DUMMY_SP
  exact ⟨hd.1 rfl, hn.2.1 (by decide) rfl,
    hdum.2.2.1 FunctionDebugContext.functionWithoutDebugInfo
      ⟨[], [⟨0, 0⟩], []⟩ [Event.createNamespace ⟨0, 0⟩] (by decide) rfl rfl
      rfl,
    h.2.2.2 (FunctionDebugContext.regularContext data1) st3C evs1 (by decide)
      rfl (by decide) rfl⟩

/-- Claim C10: when create_function_debug_context suppresses a function for a
dummy span (debug info on, no no_debug attribute), the containing scope has
already been resolved before the span check: the result carries exactly the
state and builder calls of get_containing_scope — namespace scope nodes and
possibly the self type's metadata are created and cached — while the file
cache is unchanged and no subprogram or subroutine-type node is created. -/
theorem claim_C10 (cx : CodegenCx) (st : DebugState) (inst : Instance)
    (sig : FnSig)
    (h1 : ¬ cx.debuginfo = DebugInfoLevel.no)
    (h2 : inst.attrs.contains "no_debug" = false)
    (cs : Node) (st1 : DebugState) (e1 : List Event)
    (hcs : get_containing_scope cx st inst = Except.ok (cs, st1, e1)) :
    create_function_debug_context cx st inst sig DUMMY_SP =
      Except.ok (FunctionDebugContext.functionWithoutDebugInfo, st1, e1) ∧
    st1.fileMap = st.fileMap ∧
    (∀ e ∈ e1, (e.isCreateTypeNode || e.isCreateNamespace) = true) ∧
    e1.countP Event.isCreateFunction = 0 ∧
    e1.countP Event.isCreateSubroutineType = 0 := by
  refine ⟨create_fdc_dummy_span cx st inst sig h1 h2 cs st1 e1 hcs,
    get_containing_scope_fileMap cx st inst cs st1 e1 hcs,
    get_containing_scope_events cx st inst cs st1 e1 hcs, ?_, ?_⟩
  · exact countP_zero_of_all e1
      (get_containing_scope_events cx st inst cs st1 e1 hcs)
      (fun e he => by cases e <;> simp_all [Event.isCreateTypeNode,
        Event.isCreateNamespace, Event.isCreateFunction])
  · exact countP_zero_of_all e1
      (get_containing_scope_events cx st inst cs st1 e1 hcs)
      (fun e he => by cases e <;> simp_all [Event.isCreateTypeNode,
        Event.isCreateNamespace, Event.isCreateSubroutineType])

/-- Witness for claim C10 at an inherent method suppressed for a dummy span:
the self type's metadata node has been created and cached (the type cache
gains the self type), the file cache is unchanged, and the trace holds only
that type-creation call. -/
theorem claim_C10_witness :
    create_function_debug_context cxInherent st0 inst0 sig0 DUMMY_SP =
      Except.ok (FunctionDebugContext.functionWithoutDebugInfo,
        ⟨[Ty.adt 3 false], [], []⟩,
        [Event.createTypeNode (Ty.adt 3 false)]) ∧
    (⟨[Ty.adt 3 false], [], []⟩ : DebugState).fileMap = st0.fileMap ∧
    ([Event.createTypeNode (Ty.adt 3 false)] : List Event).countP
      Event.isCreateFunction = 0 ∧
    ([Event.createTypeNode (Ty.adt 3 false)] : List Event).countP
      Event.isCreateSubroutineType = 0 := by
  have h := claim_C10 cxInherent st0 inst0 sig0 (by decide) rfl
    (Node.typeNode (Ty.adt 3 false)) ⟨[Ty.adt 3 false], [], []⟩
    [Event.createTypeNode (Ty.adt 3 false)] rfl
  exact ⟨h.1, h.2.1, h.2.2.2.1, h.2.2.2.2⟩

end Debuginfo
